import Mathlib

/-!
Verification development for the GNSS log parser (`src/services/parser.ts`).

The parser is a single forward scan over a byte buffer that recognizes three
framings (NMEA sentences, UBX frames, SBF blocks), accumulates an epoch draft,
and flushes completed epochs into an output list.  Everything below is a
shallow embedding of that TypeScript source into Lean:

* JavaScript numbers are modelled as `Option ℚ` (`none` is `NaN`); the code
  paths exercised by the claims perform only arithmetic that is exact in IEEE
  doubles (integers and small multiples of 1/4), so exact rationals agree with
  the double computations there.  Division results fed to `toFixed(1)` are
  rounded as the ECMAScript algorithm dictates (nearest, ties towards +∞).
* Rational arithmetic is routed through `mkRat`-based wrappers (`qAdd`, ...)
  because the library's `Rat.add`/`Rat.mul`/... are `@[irreducible]` and do
  not evaluate inside `decide`; bridge theorems below identify the wrappers
  with the ordinary field operations on `ℚ`.
* Byte-array reads out of bounds yield `undefined` in JS; where the source
  feeds such reads into bitwise arithmetic (which coerces `undefined` to 0)
  we read with `List.getD _ 0`, and where `undefined` propagates as `NaN`
  we use `Option`.
* `TextDecoder` is modelled as byte-wise code-point decoding, which agrees
  with UTF-8 on ASCII data; all format-relevant characters are ASCII.
* The float64 fields of the SBF position block are decoded exactly into `ℚ`
  (IEEE-754 bit pattern to rational, infinities and NaN to `none`); the
  subsequent radian-to-degree conversion is exact rational arithmetic rather
  than double arithmetic.  No claim depends on those position values.
-/

namespace GNSS

/-! ### Kernel-reducible rational arithmetic -/

/-- Addition on `ℚ` via `mkRat`, so that it evaluates under `decide`. -/
def qAdd (a b : ℚ) : ℚ := mkRat (a.num * b.den + b.num * a.den) (a.den * b.den)

/-- Negation on `ℚ` via `mkRat`. -/
def qNeg (a : ℚ) : ℚ := mkRat (-a.num) a.den

/-- Multiplication on `ℚ` via `mkRat`. -/
def qMul (a b : ℚ) : ℚ := mkRat (a.num * b.num) (a.den * b.den)

/-- Inverse on `ℚ` via `mkRat` (0 maps to 0, as for `Inv ℚ`). -/
def qInv (a : ℚ) : ℚ :=
  if 0 ≤ a.num then mkRat a.den a.num.toNat else qNeg (mkRat a.den (-a.num).toNat)

/-- Division on `ℚ` via `mkRat`. -/
def qDiv (a b : ℚ) : ℚ := qMul a (qInv b)

/-- Subtraction on `ℚ` via `mkRat`. -/
def qSub (a b : ℚ) : ℚ := qAdd a (qNeg b)

/-- Floor of a rational, computed on the numerator and denominator. -/
def qFloor (a : ℚ) : ℤ := a.num / (a.den : ℤ)

/-- Truncation towards zero, as JavaScript `Math.trunc` / the `%` operator use. -/
def qTrunc (a : ℚ) : ℤ := a.num.tdiv (a.den : ℤ)

/-- Embed an integer into `ℚ` reducibly. -/
def qInt (n : ℤ) : ℚ := mkRat n 1

/-- Embed a natural number into `ℚ` reducibly. -/
def qNat (n : ℕ) : ℚ := mkRat (n : ℤ) 1

/-- JavaScript remainder `a % b` (sign follows the dividend). -/
def jsModQ (a b : ℚ) : ℚ := qSub a (qMul b (qInt (qTrunc (qDiv a b))))

/-! ### JavaScript numbers -/

/-- A JavaScript number: `none` models `NaN` (infinities do not arise on the
modelled paths), `some q` a finite value. -/
abbrev JsNum := Option ℚ

/-- `NaN`-propagating addition. -/
def jsAdd : JsNum → JsNum → JsNum
  | some a, some b => some (qAdd a b)
  | _, _ => none

/-- `NaN`-propagating subtraction. -/
def jsSub : JsNum → JsNum → JsNum
  | some a, some b => some (qSub a b)
  | _, _ => none

/-- `NaN`-propagating division. -/
def jsDiv : JsNum → JsNum → JsNum
  | some a, some b => some (qDiv a b)
  | _, _ => none

/-- JavaScript `x > 0` (false on `NaN`). -/
def jsGtZero : JsNum → Bool
  | some a => decide (0 < a)
  | none => false

/-- ECMAScript `toFixed(1)` re-parsed by `parseFloat`: round to one decimal,
ties towards the larger value, `NaN` passed through. -/
def roundTo1 (q : ℚ) : ℚ := mkRat (qFloor (qAdd (qMul q (qInt 10)) (mkRat 1 2))) 10

/-- `parseFloat(x.toFixed(1))` on a JavaScript number. -/
def jsToFixed1 : JsNum → JsNum
  | some q => some (roundTo1 q)
  | none => none

/-- JavaScript 32-bit signed wrap, the result range of `|`, `<<`, `>>`. -/
def toInt32 (x : ℤ) : ℤ :=
  let r := x.emod 4294967296
  if r < 2147483648 then r else r - 4294967296

/-- Extract bits `[k, k+m)` of a non-negative integer: models the JavaScript
expression `(x >> k) & (2^m - 1)` for the byte-sized operands it is applied
to in the source. -/
def bitField (x k m : ℕ) : ℕ := x / 2 ^ k % 2 ^ m

/-! ### Characters, strings, and the JS number parsers -/

/-- Whitespace in the sense of JavaScript `trim` / `parseInt` / `parseFloat`
(restricted to the ASCII whitespace that can occur in these byte streams). -/
def isWs (c : Char) : Bool :=
  c = ' ' || c = '\t' || c = '\n' || c = '\r' || c = '\x0b' || c = '\x0c'

/-- JavaScript `String.prototype.trim` on a character list. -/
def trimChars (s : List Char) : List Char :=
  ((s.dropWhile isWs).reverse.dropWhile isWs).reverse

/-- Decimal digit value of a character, if any. -/
def decDigit (c : Char) : Option ℕ :=
  if '0' ≤ c ∧ c ≤ '9' then some (c.toNat - '0'.toNat) else none

/-- Hexadecimal digit value of a character, if any. -/
def hexDigit (c : Char) : Option ℕ :=
  if '0' ≤ c ∧ c ≤ '9' then some (c.toNat - '0'.toNat)
  else if 'a' ≤ c ∧ c ≤ 'f' then some (c.toNat - 'a'.toNat + 10)
  else if 'A' ≤ c ∧ c ≤ 'F' then some (c.toNat - 'A'.toNat + 10)
  else none

/-- Take the longest prefix of digits (w.r.t. a digit reader), returning the
digit values and the rest. -/
def takeDigits (dig : Char → Option ℕ) : List Char → List ℕ × List Char
  | [] => ([], [])
  | c :: cs =>
    match dig c with
    | some d =>
      let r := takeDigits dig cs
      (d :: r.1, r.2)
    | none => ([], c :: cs)

/-- Value of a digit string in a given base. -/
def digitsToNat (base : ℕ) (ds : List ℕ) : ℕ :=
  ds.foldl (fun acc d => acc * base + d) 0

/-- Strip an optional sign, returning the sign as `±1`. -/
def stripSign : List Char → ℤ × List Char
  | '-' :: r => (-1, r)
  | '+' :: r => (1, r)
  | r => (1, r)

/-- JavaScript `parseInt(s)` (no radix argument): optional whitespace and
sign, then either a `0x`/`0X` hexadecimal literal or a decimal digit run;
trailing garbage is ignored; no digits means `NaN` (`none`). -/
def jsParseInt (s : List Char) : Option ℤ :=
  let s1 := s.dropWhile isWs
  let sgn := (stripSign s1).1
  let s2 := (stripSign s1).2
  match s2 with
  | '0' :: x :: r =>
    if x = 'x' ∨ x = 'X' then
      let ds := (takeDigits hexDigit r).1
      if ds = [] then none else some (sgn * (digitsToNat 16 ds : ℤ))
    else
      some (sgn * (digitsToNat 10 (takeDigits decDigit ('0' :: x :: r)).1 : ℤ))
  | _ =>
    let ds := (takeDigits decDigit s2).1
    if ds = [] then none else some (sgn * (digitsToNat 10 ds : ℤ))

/-- Exponent part of a JavaScript float literal: `e`/`E`, optional sign and
digits; an exponent marker without digits contributes nothing (JS `parseFloat`
takes the longest valid literal prefix). -/
def floatExp (r : List Char) : ℤ :=
  match r with
  | c :: rest =>
    if c = 'e' ∨ c = 'E' then
      let sg := (stripSign rest).1
      let ds := (takeDigits decDigit (stripSign rest).2).1
      if ds = [] then 0 else sg * (digitsToNat 10 ds : ℤ)
    else 0
  | [] => 0

/-- Scale a rational by a (possibly negative) power of ten. -/
def scalePow10 (q : ℚ) (e : ℤ) : ℚ :=
  if 0 ≤ e then qMul q (qNat (10 ^ e.toNat)) else qDiv q (qNat (10 ^ (-e).toNat))

/-- JavaScript `parseFloat(s)`: optional whitespace and sign, an integer
and/or fraction part, and an optional exponent; trailing garbage is ignored;
no digits at all means `NaN`.  (The `Infinity` literal is not modelled; none
of the byte streams relevant to the claims contains it.) -/
def jsParseFloat (s : List Char) : JsNum :=
  let s1 := s.dropWhile isWs
  let sgn := (stripSign s1).1
  let s2 := (stripSign s1).2
  let ip := takeDigits decDigit s2
  match ip.2 with
  | '.' :: r2 =>
    let fp := takeDigits decDigit r2
    if ip.1 = [] ∧ fp.1 = [] then none
    else
      let mant := mkRat (sgn * (digitsToNat 10 (ip.1 ++ fp.1) : ℤ)) (10 ^ fp.1.length)
      some (scalePow10 mant (floatExp fp.2))
  | _ =>
    if ip.1 = [] then none
    else some (scalePow10 (qInt (sgn * (digitsToNat 10 ip.1 : ℤ))) (floatExp ip.2))

/-- Split a character list at every occurrence of a separator; mirrors
JavaScript `String.prototype.split` with a single-character separator
(so the empty string yields `[[]]`). -/
def splitOn (sep : Char) : List Char → List (List Char)
  | [] => [[]]
  | c :: cs =>
    let r := splitOn sep cs
    if c = sep then [] :: r
    else
      match r with
      | h :: t => (c :: h) :: t
      | [] => [[c]]

/-- Substring containment, JavaScript `String.prototype.includes`. -/
def containsSub (n : List Char) : List Char → Bool
  | [] => n.isEmpty
  | c :: cs => n.isPrefixOf (c :: cs) || containsSub n cs

/-- Decode a byte to a character; agrees with `TextDecoder` on ASCII input. -/
def decodeBytes (bs : List ℕ) : List Char := bs.map Char.ofNat

/-- Decimal string of an integer, JavaScript `Number.prototype.toString`. -/
def intToChars (n : ℤ) : List Char :=
  if n < 0 then '-' :: Nat.toDigits 10 (-n).toNat else Nat.toDigits 10 n.toNat

/-- JavaScript `padStart(2, "0")`. -/
def padStart2 (s : List Char) : List Char :=
  if s.length < 2 then List.replicate (2 - s.length) '0' ++ s else s

/-- Uppercase hexadecimal of a byte padded to two digits: the JavaScript
`b.toString(16).toUpperCase().padStart(2, "0")` used for UBX labels. -/
def hex2 (n : ℕ) : List Char :=
  padStart2 ((Nat.toDigits 16 n).map Char.toUpper)

/-! ### Data model (`types.ts` / `parser.ts` state) -/

/-- An emitted epoch record (`GNSSDataPoint` as pushed by `flushEpoch`).
Fields that the push may leave `undefined` are `Option`-valued; `timeSeconds`
is present whenever a record is pushed (the push is guarded on it) but may be
the JavaScript `NaN`, hence `JsNum`. -/
structure GNSSDataPoint where
  timestamp : Option (List Char)
  timeSeconds : JsNum
  lat : Option ℚ
  lon : Option ℚ
  alt : Option ℚ
  fixQuality : Option ℤ
  satellitesUsed : ℤ
  gpsTrackedCount : ℕ
  gpsL1Cn0 : Option ℚ
  gpsTop3AvgCn0 : JsNum
  secSigState : ℕ
  spoofingState : Option ℕ
  fixType : ℕ
  gnssFixOK : Bool
deriving DecidableEq, Repr

/-- The mutable epoch draft `currentEpoch : Partial<GNSSDataPoint>`.
Every field can be `undefined` (`none`). -/
structure EpochDraft where
  spoofingState : Option ℕ := none
  secSigState : Option ℕ := none
  gpsL1Cn0 : Option ℚ := none
  gpsTop3AvgCn0 : Option ℚ := none
  gpsTrackedCount : Option ℕ := none
  satellitesUsed : Option ℤ := none
  fixType : Option ℕ := none
  gnssFixOK : Option Bool := none
  timestamp : Option (List Char) := none
  timeSeconds : Option JsNum := none
  lat : Option ℚ := none
  lon : Option ℚ := none
  alt : Option ℚ := none
  fixQuality : Option ℤ := none
deriving DecidableEq, Repr

/-- The whole mutable state of one `parseGNSSLog` invocation.  `seenTimes` is
a ghost field: it records, in encounter order, every time value the parse
processes (NMEA seconds-of-day and SBF time-of-week seconds).  It is only
appended to and no other field ever depends on it; it exists so that theorems
can hypothesize about the monotonicity of the encountered times. -/
structure ParserState where
  i : ℕ
  dataPoints : List GNSSDataPoint
  messageCounts : List (List Char × ℕ)
  currentEpoch : EpochDraft
  lastSecSigState : ℕ
  lastGpsL1Cn0 : ℚ
  lastFixType : ℕ
  lastGnssFixOK : Bool
  startTime : ℚ
  lastSbfTow : ℤ
  currentEpochGpsSnrs : List JsNum
  currentEpochGpsSvs : Finset (Option ℤ)
  currentEpochGpsUsedSvs : Finset ℤ
  extractedText : List Char
  seenTimes : List JsNum
deriving DecidableEq

/-- The initial state (`parser.ts` lines 8–32, 105–106). -/
def initState : ParserState where
  i := 0
  dataPoints := []
  messageCounts := []
  currentEpoch :=
    { spoofingState := some 0
      secSigState := some 0
      gpsL1Cn0 := some 0
      gpsTop3AvgCn0 := some 0
      gpsTrackedCount := some 0
      satellitesUsed := some 0 }
  lastSecSigState := 0
  lastGpsL1Cn0 := 0
  lastFixType := 0
  lastGnssFixOK := false
  startTime := 0
  lastSbfTow := -1
  currentEpochGpsSnrs := []
  currentEpochGpsSvs := ∅
  currentEpochGpsUsedSvs := ∅
  extractedText := []
  seenTimes := []

/-- `incrementMsgCount`: bump the count for a label, inserting it at the end
on first occurrence (JavaScript object key order). -/
def incrementMsgCount (t : List Char) : List (List Char × ℕ) → List (List Char × ℕ)
  | [] => [(t, 1)]
  | (k, v) :: rest =>
    if k = t then (k, v + 1) :: rest else (k, v) :: incrementMsgCount t rest

/-- `parseNmeaTime`: `hhmmss.ss` to seconds of day; strings shorter than six
characters yield 0; non-numeric content yields `NaN`. -/
def parseNmeaTime (timeStr : List Char) : JsNum :=
  if timeStr = [] ∨ timeStr.length < 6 then some 0
  else
    match jsParseInt (timeStr.take 2), jsParseInt ((timeStr.drop 2).take 2),
        jsParseFloat (timeStr.drop 4) with
    | some h, some m, some sec => some (qAdd (qInt (h * 3600 + m * 60)) sec)
    | _, _, _ => none

/-- Stable descending order used to model `snrs.sort((a, b) => b - a)`:
`a` may stay before `b` iff the comparator does not force a swap.  On `NaN`
the ECMAScript comparison coerces the comparator result to `+0` (equal). -/
def jsDescLe : JsNum → JsNum → Bool
  | some a, some b => decide (b ≤ a)
  | _, _ => true

/-- Insert into a descendingly sorted list, before the first smaller element
(stable for ties). -/
def jsInsertDesc (a : JsNum) : List JsNum → List JsNum
  | [] => [a]
  | b :: l => if jsDescLe a b then a :: b :: l else b :: jsInsertDesc a l

/-- Stable descending sort; extensionally equal to the (required stable)
JavaScript `sort` with comparator `(a, b) => b - a` on lists of numbers. -/
def jsSortDesc : List JsNum → List JsNum
  | [] => []
  | a :: l => jsInsertDesc a (jsSortDesc l)

/-- `calculateTop3Avg` (`parser.ts` lines 48–54): 0 with no samples, else the
`toFixed(1)`-rounded average of the up-to-3 largest samples. -/
def calculateTop3Avg (snrs : List JsNum) : JsNum :=
  if snrs.length = 0 then some 0
  else
    let sorted := jsSortDesc snrs
    let top3 := sorted.take 3
    let sum := top3.foldl jsAdd (some 0)
    jsToFixed1 (jsDiv sum (some (qNat top3.length)))

/-- JavaScript `x || d` for a possibly-undefined integer `x`: `d` when `x` is
`undefined` or `0`. -/
def jsOrInt (x : Option ℤ) (d : ℤ) : ℤ :=
  match x with
  | none => d
  | some v => if v = 0 then d else v

/-- JavaScript `x || d` for a possibly-undefined natural `x`. -/
def jsOrNat (x : Option ℕ) (d : ℕ) : ℕ :=
  match x with
  | none => d
  | some v => if v = 0 then d else v

/-- The record pushed by `flushEpoch` when the draft has a `timeSeconds`
(`parser.ts` lines 69–78): spread of the draft with the resolved overrides. -/
def flushRecord (s : ParserState) (ts : JsNum) : GNSSDataPoint where
  timestamp := s.currentEpoch.timestamp
  timeSeconds := ts
  lat := s.currentEpoch.lat
  lon := s.currentEpoch.lon
  alt := s.currentEpoch.alt
  fixQuality := s.currentEpoch.fixQuality
  satellitesUsed :=
    if 0 < s.currentEpochGpsUsedSvs.card then (s.currentEpochGpsUsedSvs.card : ℤ)
    else jsOrInt s.currentEpoch.satellitesUsed 0
  gpsTrackedCount := s.currentEpochGpsSvs.card
  gpsL1Cn0 :=
    if s.lastGpsL1Cn0 = 0 then s.currentEpoch.gpsL1Cn0 else some s.lastGpsL1Cn0
  gpsTop3AvgCn0 := calculateTop3Avg s.currentEpochGpsSnrs
  secSigState := jsOrNat s.currentEpoch.secSigState s.lastSecSigState
  spoofingState := s.currentEpoch.spoofingState
  fixType := s.currentEpoch.fixType.getD s.lastFixType
  gnssFixOK := s.currentEpoch.gnssFixOK.getD s.lastGnssFixOK

/-- `flushEpoch` (`parser.ts` lines 57–103): if the draft has a `timeSeconds`,
push the resolved record and update the carry-forward state from the draft;
in every case clear the per-epoch buffers and restart the draft pre-seeded
from the (possibly just updated) carry-forward state. -/
def flushEpoch (s : ParserState) : ParserState :=
  let s1 :=
    match s.currentEpoch.timeSeconds with
    | some ts =>
      { s with
        dataPoints := s.dataPoints ++ [flushRecord s ts]
        lastSecSigState := s.currentEpoch.secSigState.getD s.lastSecSigState
        lastGpsL1Cn0 := s.currentEpoch.gpsL1Cn0.getD s.lastGpsL1Cn0
        lastFixType := s.currentEpoch.fixType.getD s.lastFixType
        lastGnssFixOK := s.currentEpoch.gnssFixOK.getD s.lastGnssFixOK }
    | none => s
  { s1 with
    currentEpochGpsSnrs := []
    currentEpochGpsSvs := ∅
    currentEpochGpsUsedSvs := ∅
    currentEpoch :=
      { spoofingState := some 0
        secSigState := some s1.lastSecSigState
        gpsL1Cn0 := some s1.lastGpsL1Cn0
        gpsTop3AvgCn0 := some 0
        gpsTrackedCount := some 0
        satellitesUsed := some 0
        fixType := some s1.lastFixType
        gnssFixOK := some s1.lastGnssFixOK } }

/-! ### NMEA sentence decoding -/

/-- The used-in-fix PRN contributed by GSA field `k`, if any: the field is
non-empty, numeric, and in `[1, 32]` (`parser.ts` lines 143–150). -/
def gsaPrnAt (parts : List (List Char)) (k : ℕ) : Option ℤ :=
  let prnStr := parts.getD k []
  if prnStr ≠ [] then
    match jsParseInt prnStr with
    | some prn => if 1 ≤ prn ∧ prn ≤ 32 then some prn else none
    | none => none
  else none

/-- The set of PRNs a GSA-style sentence's fields 3–14 contribute
(specification-side description of the loop below). -/
def gsaPrns (parts : List (List Char)) : Finset ℤ :=
  ((List.range' 3 12).filterMap (gsaPrnAt parts)).toFinset

/-- The GSA field loop (`parser.ts` lines 142–152) as a left fold. -/
def gsaFold (parts : List (List Char)) (acc : Finset ℤ) : Finset ℤ :=
  (List.range' 3 12).foldl (fun st k =>
    match gsaPrnAt parts k with
    | some prn => insert prn st
    | none => st) acc

/-- GSA handling on one line (`parser.ts` lines 137–154). -/
def processGSA (line : List Char) (s : ParserState) : ParserState :=
  if containsSub "GSA".toList line then
    let parts := splitOn ',' (line.takeWhile (· ≠ '*'))
    if 3 < parts.length then
      { s with currentEpochGpsUsedSvs := gsaFold parts s.currentEpochGpsUsedSvs }
    else s
  else s

/-- The group start indices of the GSV field loop: `k = 4, 8, …` while
`k + 3 < parts.length` (the loop breaks on an incomplete final group). -/
def gsvGroups (parts : List (List Char)) : List ℕ :=
  List.range' 4 ((parts.length - 4) / 4) 4

/-- The (PRN, SNR) pair the GSV group starting at field `k` contributes, if
any: both numbers parse, the signal is positive, and the satellite belongs to
the GPS constellation (`parser.ts` lines 169–181). -/
def gsvEntryAt (talker : List Char) (parts : List (List Char)) (k : ℕ) :
    Option (ℤ × ℤ) :=
  match jsParseInt (parts.getD k []), jsParseInt (parts.getD (k + 3) []) with
  | some prn, some snr =>
    if 0 < snr then
      if talker = "GP".toList ∨ (talker = "GN".toList ∧ 1 ≤ prn ∧ prn ≤ 32) then
        some (prn, snr)
      else none
    else none
  | _, _ => none

/-- The set of tracked PRNs a GSV sentence contributes (specification-side
description of the loop below). -/
def gsvPrns (talker : List Char) (parts : List (List Char)) : Finset (Option ℤ) :=
  ((gsvGroups parts).filterMap fun k => (gsvEntryAt talker parts k).map
    fun e => some e.1).toFinset

/-- The GSV group loop (`parser.ts` lines 165–183) as a left fold: each
qualifying group appends its signal sample and inserts its satellite. -/
def gsvFold (talker : List Char) (parts : List (List Char))
    (acc : List JsNum × Finset (Option ℤ)) : List JsNum × Finset (Option ℤ) :=
  (gsvGroups parts).foldl (fun ac k =>
    match gsvEntryAt talker parts k with
    | some e => (ac.1 ++ [some (qInt e.2)], insert (some e.1) ac.2)
    | none => ac) acc

/-- GSV handling on one line (`parser.ts` lines 158–185). -/
def processGSV (line : List Char) (s : ParserState) : ParserState :=
  if containsSub "GSV".toList line then
    let parts := splitOn ',' (line.takeWhile (· ≠ '*'))
    if 3 < parts.length then
      let talker := ((parts.getD 0 []).drop 1).take 2
      let r := gsvFold talker parts (s.currentEpochGpsSnrs, s.currentEpochGpsSvs)
      { s with currentEpochGpsSnrs := r.1, currentEpochGpsSvs := r.2 }
    else s
  else s

/-- Whether a line makes the GGA branch flush and restart the epoch
(`parser.ts` lines 190–196): it mentions GGA, splits into at least 10 fields,
and carries a time field of at least six characters. -/
def ggaTriggered (line : List Char) : Bool :=
  containsSub "GGA".toList line &&
    (let parts := splitOn ',' (line.takeWhile (· ≠ '*'))
     decide (10 ≤ parts.length) &&
       (let timeStr := parts.getD 1 []
        !timeStr.isEmpty && decide (6 ≤ timeStr.length)))

/-- GGA handling on one line (`parser.ts` lines 190–237): flush the previous
epoch, then populate the fresh draft's time, position and fix fields. -/
def processGGA (line : List Char) (s : ParserState) : ParserState :=
  if containsSub "GGA".toList line then
    let parts := splitOn ',' (line.takeWhile (· ≠ '*'))
    if 10 ≤ parts.length then
      let timeStr := parts.getD 1 []
      if ¬timeStr.isEmpty ∧ 6 ≤ timeStr.length then
        let s1 := flushEpoch s
        let latRaw := jsParseFloat (parts.getD 2 [])
        let latDir := parts.getD 3 []
        let lonRaw := jsParseFloat (parts.getD 4 [])
        let lonDir := parts.getD 5 []
        let fixQuality := jsParseInt (parts.getD 6 [])
        let satsUsedTotal := jsParseInt (parts.getD 7 [])
        let alt := jsParseFloat (parts.getD 9 [])
        let latlon : Option ℚ × Option ℚ :=
          match latRaw, lonRaw with
          | some lr, some nr =>
            if ¬latDir.isEmpty ∧ ¬lonDir.isEmpty then
              let latDeg := qFloor (qDiv lr (qInt 100))
              let latMin := jsModQ lr (qInt 100)
              let lonDeg := qFloor (qDiv nr (qInt 100))
              let lonMin := jsModQ nr (qInt 100)
              (some (qMul (qAdd (qInt latDeg) (qDiv latMin (qInt 60)))
                  (if latDir = "S".toList then qInt (-1) else qInt 1)),
               some (qMul (qAdd (qInt lonDeg) (qDiv lonMin (qInt 60)))
                  (if lonDir = "W".toList then qInt (-1) else qInt 1)))
            else (none, none)
          | _, _ => (none, none)
        let tSecs := parseNmeaTime timeStr
        let startTime' :=
          if s1.startTime = 0 ∧ jsGtZero tSecs then tSecs.getD 0 else s1.startTime
        let timeSec : JsNum :=
          if 0 < startTime' then jsSub tSecs (some startTime') else some 0
        let ts := timeStr.take 2 ++ ':' :: ((timeStr.drop 2).take 2) ++
          ':' :: ((timeStr.drop 4).take 2)
        { s1 with
          startTime := startTime'
          seenTimes := s1.seenTimes ++ [tSecs]
          currentEpoch := { s1.currentEpoch with
            timestamp := some ts
            timeSeconds := some timeSec
            lat := latlon.1
            lon := latlon.2
            alt := alt
            fixQuality := some (fixQuality.getD 0)
            satellitesUsed := some (satsUsedTotal.getD 0) } }
      else s
    else s
  else s

/-- One recognized NMEA line (`parser.ts` lines 122–237): text excerpt,
histogram, then the GSA, GSV and GGA handlers in source order. -/
def processNmeaLine (line : List Char) (s : ParserState) : ParserState :=
  let s1 := { s with
    extractedText :=
      if s.extractedText.length < 50000 then s.extractedText ++ line ++ ['\n']
      else s.extractedText }
  let s2 :=
    match line.findIdx? (· = ',') with
    | some idx =>
      if 0 < idx then
        { s1 with messageCounts := incrementMsgCount (line.take idx) s1.messageCounts }
      else s1
    | none => s1
  processGGA line (processGSV line (processGSA line s2))

/-! ### UBX frame decoding -/

/-- UBX payload handling (`parser.ts` lines 252–318): the histogram label,
then the four recognized (class, id) messages. -/
def processUbx (msgClass msgId len : ℕ) (payload : List ℕ) (s : ParserState) :
    ParserState :=
  let readableName :=
    if msgClass = 1 ∧ msgId = 7 then "UBX-NAV-PVT".toList
    else if msgClass = 1 ∧ msgId = 67 then "UBX-NAV-SIG".toList
    else if msgClass = 39 ∧ msgId = 9 then "UBX-SEC-SIG".toList
    else if msgClass = 1 ∧ msgId = 3 then "UBX-NAV-STATUS".toList
    else "UBX-0x".toList ++ hex2 msgClass ++ "-0x".toList ++ hex2 msgId
  let s1 := { s with messageCounts := incrementMsgCount readableName s.messageCounts }
  if msgClass = 39 ∧ msgId = 9 then
    match payload.head? with
    | some 2 =>
      { s1 with currentEpoch := { s1.currentEpoch with
          secSigState := some (bitField (payload.getD 1 0) 4 2) } }
    | some 1 =>
      if 8 ≤ len then
        { s1 with currentEpoch := { s1.currentEpoch with
            secSigState := some (payload.getD 6 0) } }
      else s1
    | _ => s1
  else if msgClass = 1 ∧ msgId = 67 then
    if 8 ≤ len then
      let numSigs := payload.getD 5 0
      let acc := (List.range numSigs).foldl (fun (ac : ℕ × ℕ) sIdx =>
        let base := 8 + sIdx * 16
        if base + 16 ≤ len then
          if payload.getD base 0 = 0 ∧ payload.getD (base + 1) 0 = 0 then
            (ac.1 + payload.getD (base + 2) 0, ac.2 + 1)
          else ac
        else ac) (0, 0)
      if 0 < acc.2 then
        { s1 with currentEpoch := { s1.currentEpoch with
            gpsL1Cn0 := some (roundTo1 (mkRat (acc.1 : ℤ) acc.2)) } }
      else s1
    else s1
  else if msgClass = 1 ∧ msgId = 7 then
    if 22 ≤ len then
      { s1 with currentEpoch := { s1.currentEpoch with
          fixType := some (payload.getD 20 0)
          gnssFixOK := some (payload.getD 21 0 % 2 = 1) } }
    else s1
  else if msgClass = 1 ∧ msgId = 3 then
    if 16 ≤ len then
      { s1 with currentEpoch := { s1.currentEpoch with
          spoofingState := some (bitField (payload.getD 13 0) 3 2) } }
    else s1
  else s1

/-! ### SBF block decoding -/

/-- The time-of-week read (`parser.ts` line 343): four little-endian payload
bytes combined with JavaScript `|` and `<<`, which operate on signed 32-bit
integers; out-of-range reads are `undefined` and coerce to 0. -/
def towOf (payload : List ℕ) : ℤ :=
  toInt32 ((payload.getD 0 0 : ℤ) + 256 * payload.getD 1 0 +
    65536 * payload.getD 2 0 + 16777216 * payload.getD 3 0)

/-- SBF time-of-week handling (`parser.ts` lines 343–362).  Note the guard
`tow !== 4294967295` compares the signed 32-bit read (range
`[-2^31, 2^31)`) against `2^32 - 1`.  Appends the encountered time to the
ghost `seenTimes`. -/
def sbfTimeStep (tow : ℤ) (s : ParserState) : ParserState :=
  if tow ≠ 4294967295 then
    let s1 := { s with seenTimes := s.seenTimes ++ [some (qDiv (qInt tow) (qInt 1000))] }
    let s2 := if s1.lastSbfTow ≠ -1 ∧ tow ≠ s1.lastSbfTow then flushEpoch s1 else s1
    let s3 := { s2 with lastSbfTow := tow }
    if s3.currentEpoch.timestamp = none then
      let tSecs := qDiv (qInt tow) (qInt 1000)
      let startTime' := if s3.startTime = 0 then tSecs else s3.startTime
      let hours := qFloor (qDiv (jsModQ tSecs (qInt 86400)) (qInt 3600))
      let mins := qFloor (qDiv (jsModQ tSecs (qInt 3600)) (qInt 60))
      let secs := qFloor (jsModQ tSecs (qInt 60))
      { s3 with
        startTime := startTime'
        currentEpoch := { s3.currentEpoch with
          timeSeconds := some (some (qSub tSecs startTime'))
          timestamp := some (padStart2 (intToChars hours) ++
            ':' :: padStart2 (intToChars mins) ++ ':' :: padStart2 (intToChars secs)) } }
    else s3
  else s

/-- Decode a little-endian IEEE-754 float64 into an exact rational; NaN and
the infinities are folded into `none` (see the header note). -/
def decodeF64 (bs : List ℕ) : JsNum :=
  let bits := (List.range 8).foldl (fun acc j => acc + bs.getD j 0 % 256 * 256 ^ j) 0
  let sign := bits / 2 ^ 63 % 2
  let expo := bits / 2 ^ 52 % 2 ^ 11
  let mant := bits % 2 ^ 52
  if expo = 2047 then none
  else
    let full : ℕ := 2 ^ 52 + mant
    let mag : ℚ :=
      if expo = 0 then mkRat (Int.ofNat mant) (2 ^ 1074)
      else if 1075 ≤ expo then mkRat (Int.ofNat (full * 2 ^ (expo - 1075))) 1
      else mkRat (Int.ofNat full) (2 ^ (1075 - expo))
    some (if sign = 1 then qNeg mag else mag)

/-- The double value of `Math.PI`. -/
def piDouble : ℚ := mkRat 884279719003555 281474976710656

/-- The MeasEpoch type-1 sub-block loop (`parser.ts` lines 415–447).  The
pointer is `Option ℕ`: it becomes `none` (JavaScript `NaN`) when the trailing
`N2` count is read one past the payload end, after which the bound check
`NaN + 19 > length` is false, all reads are `undefined`, the masked signal
type coerces to 0, the `!== 255` test holds, a `NaN` sample is pushed and
`undefined` is added to the tracked set, and the pointer stays `NaN`. -/
def measLoop (payload : List ℕ) (sb1Len sb2Len : ℕ) :
    ℕ → Option ℕ → List JsNum → Finset (Option ℤ) → List JsNum × Finset (Option ℤ)
  | 0, _, snrs, svs => (snrs, svs)
  | k + 1, some p, snrs, svs =>
    if payload.length < p + 19 then (snrs, svs)
    else
      let acc :=
        if payload.getD (p + 1) 0 % 32 = 0 then
          if payload.getD (p + 15) 0 ≠ 255 then
            (snrs ++ [some (qAdd (qMul (qNat (payload.getD (p + 15) 0)) (mkRat 1 4)) (qInt 10))],
             insert (some ((payload.getD (p + 2) 0 : ℤ))) svs)
          else (snrs, svs)
        else (snrs, svs)
      if p + 19 < payload.length then
        measLoop payload sb1Len sb2Len k
          (some (p + sb1Len + payload.getD (p + 19) 0 * sb2Len)) acc.1 acc.2
      else measLoop payload sb1Len sb2Len k none acc.1 acc.2
  | k + 1, none, snrs, svs =>
    measLoop payload sb1Len sb2Len k none (snrs ++ [none]) (insert none svs)

/-- The three recognized SBF blocks (`parser.ts` lines 365–449). -/
def processSbfBlock (blockNumber : ℕ) (payload : List ℕ) (s : ParserState) :
    ParserState :=
  if blockNumber = 4092 then
    let s1 := { s with messageCounts := incrementMsgCount "SBF-RFStatus".toList s.messageCounts }
    if 8 < payload.length then
      { s1 with currentEpoch := { s1.currentEpoch with
          secSigState := some (if payload.getD 8 0 % 2 ≠ 0 then 3 else 1) } }
    else s1
  else if blockNumber = 4007 then
    let s1 := { s with messageCounts := incrementMsgCount "SBF-PVTGeodetic".toList s.messageCounts }
    if 24 ≤ payload.length then
      match decodeF64 ((payload.drop 8).take 8), decodeF64 ((payload.drop 16).take 8) with
      | some la, some lo =>
        if qInt (-10000000000) < la ∧ qInt (-10000000000) < lo then
          { s1 with currentEpoch := { s1.currentEpoch with
              lat := some (qDiv (qMul la (qInt 180)) piDouble)
              lon := some (qDiv (qMul lo (qInt 180)) piDouble)
              fixQuality := some 1 } }
        else s1
      | _, _ => s1
    else s1
  else if blockNumber = 4027 then
    let s1 := { s with messageCounts := incrementMsgCount "SBF-MeasEpoch".toList s.messageCounts }
    if 12 < payload.length then
      let r := measLoop payload (payload.getD 7 0) (payload.getD 8 0)
        (payload.getD 6 0) (some 12) s1.currentEpochGpsSnrs s1.currentEpochGpsSvs
      { s1 with currentEpochGpsSnrs := r.1, currentEpochGpsSvs := r.2 }
    else s1
  else s

/-- The separate NrSV extraction for PVTGeodetic (`parser.ts` lines 453–460). -/
def processSbfNrSv (blockNumber : ℕ) (payload : List ℕ) (s : ParserState) :
    ParserState :=
  if blockNumber = 4007 ∧ 41 ≤ payload.length then
    if payload.getD 40 0 ≠ 255 then
      { s with currentEpoch := { s.currentEpoch with
          satellitesUsed := some ((payload.getD 40 0 : ℤ)) } }
    else s
  else s

/-! ### The byte scanner -/

/-- Bounded lookahead for a line terminator (`parser.ts` lines 114–120):
the first offset in `(i, min (i + 500) N)` holding LF or CR. -/
def findLineEnd (buf : List ℕ) (i : ℕ) : Option ℕ :=
  (List.range' (i + 1) (min (i + 500) buf.length - (i + 1))).find? fun j =>
    buf.getD j 0 = 10 || buf.getD j 0 = 13

/-- The UBX and SBF branches and the one-byte resynchronization
(`parser.ts` lines 245–468, entered when the NMEA branch did not consume). -/
def parseStepTail (buf : List ℕ) (s : ParserState) : ParserState :=
  let N := buf.length
  let byte := buf.getD s.i 0
  if byte = 181 ∧ s.i + 1 < N ∧ buf.getD (s.i + 1) 0 = 98 ∧ s.i + 6 ≤ N ∧
      s.i + 6 + (buf.getD (s.i + 4) 0 + 256 * buf.getD (s.i + 5) 0) + 2 ≤ N then
    let len := buf.getD (s.i + 4) 0 + 256 * buf.getD (s.i + 5) 0
    let s' := processUbx (buf.getD (s.i + 2) 0) (buf.getD (s.i + 3) 0) len
      ((buf.drop (s.i + 6)).take len) s
    { s' with i := s.i + 6 + len + 2 }
  else if byte = 36 ∧ s.i + 1 < N ∧ buf.getD (s.i + 1) 0 = 64 ∧ s.i + 8 ≤ N ∧
      s.i + (buf.getD (s.i + 6) 0 + 256 * buf.getD (s.i + 7) 0) ≤ N then
    let length := buf.getD (s.i + 6) 0 + 256 * buf.getD (s.i + 7) 0
    let blockNumber := (buf.getD (s.i + 4) 0 + 256 * buf.getD (s.i + 5) 0) % 8192
    let payload := (buf.drop (s.i + 8)).take (length - 8)
    let s3 := processSbfNrSv blockNumber payload
      (processSbfBlock blockNumber payload (sbfTimeStep (towOf payload) s))
    { s3 with i := s.i + length }
  else { s with i := s.i + 1 }

/-- One iteration of the scanning loop (`parser.ts` lines 109–469, body).
Must only be applied when `s.i < buf.length`. -/
def parseStep (buf : List ℕ) (s : ParserState) : ParserState :=
  let N := buf.length
  let byte := buf.getD s.i 0
  if byte = 36 ∧ (N ≤ s.i + 1 ∨ buf.getD (s.i + 1) 0 ≠ 64) then
    match findLineEnd buf s.i with
    | some lineEnd =>
      let line := trimChars (decodeBytes ((buf.drop s.i).take (lineEnd - s.i)))
      let s' := processNmeaLine line s
      { s' with i := lineEnd + 1 }
    | none => parseStepTail buf s
  else parseStepTail buf s

/-- The scanning loop with explicit fuel (the source loop need not terminate;
see the claim about an SBF block declaring total length 0). -/
def parseLoop (buf : List ℕ) : ℕ → ParserState → ParserState
  | 0, s => s
  | fuel + 1, s => if s.i < buf.length then parseLoop buf fuel (parseStep buf s) else s

/-- The parse result (`ParseResult` of `types.ts`). -/
structure ParseOutput where
  data : List GNSSDataPoint
  rawText : List Char
  messageCounts : List (List Char × ℕ)
deriving DecidableEq

/-- `parseGNSSLog` on an in-memory buffer: run the scan (with the given
fuel), and if it reached the end of the buffer, apply the final flush and
return the result; `none` means the fuel did not suffice (in particular the
source loop has not terminated yet). -/
def parseGNSSLog (buf : List ℕ) (fuel : ℕ) : Option ParseOutput :=
  let s := parseLoop buf fuel initState
  if buf.length ≤ s.i then
    let s' := flushEpoch s
    some { data := s'.dataPoints, rawText := s'.extractedText,
           messageCounts := s'.messageCounts }
  else none

/-! ### Specification-side notions used by the theorems -/

/-- Insertion into a descendingly sorted rational list (stable for ties);
the all-numbers image of `jsInsertDesc`. -/
def qInsertDesc (a : ℚ) : List ℚ → List ℚ
  | [] => [a]
  | b :: l => if b ≤ a then a :: b :: l else b :: qInsertDesc a l

/-- Stable descending insertion sort on rationals; the all-numbers image of
`jsSortDesc`. -/
def qSortDesc : List ℚ → List ℚ
  | [] => []
  | a :: l => qInsertDesc a (qSortDesc l)

/-- The cursor of state `s` points at a complete UBX frame of class 0x01,
id 0x03 (NAV-STATUS) whose declared length reaches the spoofing flags byte —
the one frame kind that writes the primary spoofing state. -/
def navStatusAt (buf : List ℕ) (s : ParserState) : Prop :=
  buf.getD s.i 0 = 181 ∧ s.i + 1 < buf.length ∧ buf.getD (s.i + 1) 0 = 98 ∧
    s.i + 6 ≤ buf.length ∧
    s.i + 6 + (buf.getD (s.i + 4) 0 + 256 * buf.getD (s.i + 5) 0) + 2 ≤ buf.length ∧
    buf.getD (s.i + 2) 0 = 1 ∧ buf.getD (s.i + 3) 0 = 3 ∧
    16 ≤ buf.getD (s.i + 4) 0 + 256 * buf.getD (s.i + 5) 0

/-- All time values a parse encountered are genuine (no `NaN`), non-negative,
and non-decreasing in encounter order. -/
def goodTimes (ts : List JsNum) : Prop :=
  ∃ qs : List ℚ, ts = qs.map some ∧ qs.Chain' (· ≤ ·) ∧ ∀ q ∈ qs, 0 ≤ q

/-- The emitted records carry genuine, non-negative time offsets that are
non-decreasing in emission order. -/
def offsetsOk (dps : List GNSSDataPoint) : Prop :=
  ∃ os : List ℚ, dps.map (fun d => d.timeSeconds) = os.map some ∧
    os.Chain' (· ≤ ·) ∧ ∀ o ∈ os, 0 ≤ o

/-- The used-in-fix PRNs one whole line contributes (empty unless the line
is a GSA sentence with enough fields). -/
def gsaPrnsOf (line : List Char) : Finset ℤ :=
  if containsSub "GSA".toList line then
    let parts := splitOn ',' (line.takeWhile (· ≠ '*'))
    if 3 < parts.length then gsaPrns parts else ∅
  else ∅

/-- The tracked PRNs one whole line contributes (empty unless the line is a
GSV sentence with enough fields). -/
def gsvPrnsOf (line : List Char) : Finset (Option ℤ) :=
  if containsSub "GSV".toList line then
    let parts := splitOn ',' (line.takeWhile (· ≠ '*'))
    if 3 < parts.length then gsvPrns (((parts.getD 0 []).drop 1).take 2) parts else ∅
  else ∅

/-! ### Concrete inputs for the scenario theorems -/

/-- ASCII bytes of a string. -/
def strBytes (s : String) : List ℕ := s.toList.map Char.toNat

/-- The single-GGA scenario buffer from the specification. -/
def c8buf : List ℕ :=
  strBytes "$GPGGA,123519,4807.038,N,01131.000,E,1,08,0.9,545.4,M,46.9,M,,*47\n"

/-- An SBF header whose declared total block length is 0: sync `$@`, CRC 0,
ID 0, length 0. -/
def c3buf : List ℕ := [36, 64, 0, 0, 0, 0, 0, 0]

/-- Two GGA sentences whose times decrease (10:00:00 then 09:00:00). -/
def c4buf : List ℕ := strBytes "$GPGGA,100000,,,,,,,,,\n$GPGGA,090000,,,,,,,,,\n"

/-- Two SBF blocks of declared length 16: the first carries time-of-week
1000 ms, the second carries the do-not-use time-of-week `0xFFFFFFFF`. -/
def c1buf : List ℕ :=
  [36, 64, 0, 0, 0, 0, 16, 0, 232, 3, 0, 0, 0, 0, 0, 0,
   36, 64, 0, 0, 0, 0, 16, 0, 255, 255, 255, 255, 0, 0, 0, 0]

/-- A UBX-SEC-SIG frame (version 2) whose flags byte is `v`. -/
def ubxSecSigFrame (v : ℕ) : List ℕ := [181, 98, 39, 9, 2, 0, 2, v, 0, 0]

/-- A UBX-NAV-SIG frame carrying one GPS L1 signal record with C/N0 `cno`. -/
def ubxNavSigFrame (cno : ℕ) : List ℕ :=
  [181, 98, 1, 67, 24, 0] ++ List.replicate 5 0 ++ [1, 0, 0] ++ [0, 0, cno] ++
    List.replicate 13 0 ++ [0, 0]

/-- A minimal GGA sentence with the given time field and no position data. -/
def ggaLineBytes (t : String) : List ℕ := strBytes ("$GPGGA," ++ t ++ ",,,,,,,,,\n")

/-- Three epochs: the first freshly sets secondary-spoof-state 3 and
vendor-A signal 30, the second freshly sets secondary-spoof-state 0 and
vendor-A signal 25. -/
def c2buf : List ℕ :=
  ggaLineBytes "100000" ++ ubxNavSigFrame 30 ++ ubxSecSigFrame 48 ++
    ggaLineBytes "100001" ++ ubxNavSigFrame 25 ++ ubxSecSigFrame 0 ++
    ggaLineBytes "100002"

/-- A GSA sentence listing PRN 03 twice (fields 3 and 4). -/
def c7line : List Char := "$GPGSA,A,3,03,03,,,,,,,,,,3.5,2.1,1.8".toList

/-- The inductive invariant behind the time-offset claim: whenever the
encountered time values are genuine, non-negative and non-decreasing, the
records carry genuine non-negative non-decreasing offsets, the anchor
`startTime` is non-negative and bounded by the last encountered time, and
the draft's offset (when populated) dominates all emitted offsets and stays
within the reachable range. -/
def timeInv (s : ParserState) : Prop :=
  ∃ os : List ℚ,
    s.dataPoints.map (fun d => d.timeSeconds) = os.map some ∧
    os.Chain' (· ≤ ·) ∧ (∀ o ∈ os, 0 ≤ o) ∧
    0 ≤ s.startTime ∧
    (s.startTime = 0 → (∀ o ∈ os, o = 0) ∧
      (∀ j, s.currentEpoch.timeSeconds = some j → j = some 0)) ∧
    (0 < s.startTime → ∃ L : ℚ, s.seenTimes.getLast? = some (some L) ∧
      s.startTime ≤ L ∧ (∀ o ∈ os, o ≤ L - s.startTime) ∧
      (∀ j, s.currentEpoch.timeSeconds = some j →
        ∃ o : ℚ, j = some o ∧ o ≤ L - s.startTime)) ∧
    (∀ j, s.currentEpoch.timeSeconds = some j →
      ∃ o : ℚ, j = some o ∧ 0 ≤ o ∧ ∀ o2 ∈ os, o2 ≤ o)

/-- A state whose draft carries a time offset, used to instantiate the
flush-level theorems at a concrete input. -/
def wState : ParserState :=
  { initState with currentEpoch := { initState.currentEpoch with
      timeSeconds := some (some 0) } }

instance (buf : List ℕ) (s : ParserState) : Decidable (navStatusAt buf s) := by
  unfold navStatusAt
  infer_instance

end GNSS

namespace GNSS

/-! ### Bridges between the `mkRat`-based operations and the field on `ℚ` -/

theorem qAdd_eq (a b : ℚ) : qAdd a b = a + b := by
  unfold qAdd
  rw [Rat.mkRat_eq_div]
  push_cast
  conv_rhs => rw [← Rat.num_div_den a, ← Rat.num_div_den b]
  field_simp

theorem qNeg_eq (a : ℚ) : qNeg a = -a := by
  unfold qNeg
  rw [Rat.mkRat_eq_div]
  push_cast
  conv_rhs => rw [← Rat.num_div_den a]
  field_simp

theorem qMul_eq (a b : ℚ) : qMul a b = a * b := by
  unfold qMul
  rw [Rat.mkRat_eq_div]
  push_cast
  conv_rhs => rw [← Rat.num_div_den a, ← Rat.num_div_den b]
  field_simp

theorem qInv_eq (a : ℚ) : qInv a = a⁻¹ := by
  unfold qInv
  rcases lt_trichotomy a.num 0 with hneg | hzero | hpos
  · rw [if_neg (not_le.mpr hneg), qNeg_eq, Rat.mkRat_eq_div]
    have h1 : (((-a.num).toNat : ℕ) : ℚ) = -(a.num : ℚ) := by
      exact_mod_cast congrArg (fun z : ℤ => (z : ℚ)) (Int.toNat_of_nonneg
        (show (0 : ℤ) ≤ -a.num by omega))
    push_cast [h1]
    conv_rhs => rw [← Rat.num_div_den a, inv_div]
    rw [div_neg, neg_neg]
  · have ha : a = 0 := by
      rwa [Rat.num_eq_zero] at hzero
    subst ha
    norm_num [qNeg]
  · rw [if_pos hpos.le, Rat.mkRat_eq_div]
    conv_rhs => rw [← Rat.num_div_den a, inv_div]
    congr 1
    exact_mod_cast congrArg (fun z : ℤ => (z : ℚ)) (Int.toNat_of_nonneg hpos.le)

theorem qDiv_eq (a b : ℚ) : qDiv a b = a / b := by
  rw [qDiv, qMul_eq, qInv_eq, div_eq_mul_inv]

theorem qSub_eq (a b : ℚ) : qSub a b = a - b := by
  rw [qSub, qAdd_eq, qNeg_eq, sub_eq_add_neg]

theorem qInt_eq (n : ℤ) : qInt n = (n : ℚ) := by
  rw [qInt, Rat.mkRat_eq_div]
  norm_num

theorem qNat_eq (n : ℕ) : qNat n = (n : ℚ) := by
  rw [qNat, Rat.mkRat_eq_div]
  norm_num

theorem qFloor_eq (a : ℚ) : qFloor a = ⌊a⌋ := by
  rw [Rat.floor_def]
  rfl

theorem roundTo1_eq (q : ℚ) : roundTo1 q = (⌊q * 10 + 1 / 2⌋ : ℚ) / 10 := by
  rw [roundTo1, Rat.mkRat_eq_div]
  rw [show qAdd (qMul q (qInt 10)) (mkRat 1 2) = q * 10 + 1 / 2 by
    rw [qAdd_eq, qMul_eq, qInt_eq, Rat.mkRat_eq_div]
    norm_num]
  rw [qFloor_eq]
  norm_num

theorem jsAdd_some (a b : ℚ) : jsAdd (some a) (some b) = some (a + b) := by
  simp [jsAdd, qAdd_eq]

theorem jsSub_some (a b : ℚ) : jsSub (some a) (some b) = some (a - b) := by
  simp [jsSub, qSub_eq]

theorem jsDiv_some (a b : ℚ) : jsDiv (some a) (some b) = some (a / b) := by
  simp [jsDiv, qDiv_eq]

end GNSS

namespace GNSS

theorem processGSA_shape (l : List Char) (s : ParserState) :
    processGSA l s =
      { s with currentEpochGpsUsedSvs := (processGSA l s).currentEpochGpsUsedSvs } := by
  unfold processGSA
  dsimp only
  repeat' split
  all_goals rfl

theorem processGSV_shape (l : List Char) (s : ParserState) :
    processGSV l s =
      { s with
        currentEpochGpsSnrs := (processGSV l s).currentEpochGpsSnrs
        currentEpochGpsSvs := (processGSV l s).currentEpochGpsSvs } := by
  unfold processGSV
  dsimp only
  repeat' split
  all_goals rfl

theorem processGGA_not_triggered (l : List Char) (s : ParserState)
    (h : ggaTriggered l = false) : processGGA l s = s := by
  unfold processGGA
  dsimp only
  split
  next hc =>
    split
    next hlen =>
      split
      next ht =>
        exfalso
        have hT : ggaTriggered l = true := by
          unfold ggaTriggered
          dsimp only
          rw [hc, decide_eq_true hlen]
          obtain ⟨ht1, ht2⟩ := ht
          rw [decide_eq_true ht2]
          simp at ht1
          simp [ht1]
        rw [hT] at h
        simp at h
      next => rfl
    next => rfl
  next => rfl

theorem gsaFold_eq (parts : List (List Char)) (acc : Finset ℤ) :
    gsaFold parts acc = acc ∪ gsaPrns parts := by
  unfold gsaFold gsaPrns
  generalize List.range' 3 12 = ks
  induction ks generalizing acc with
  | nil => simp
  | cons k ks ih =>
    simp only [List.foldl_cons, List.filterMap_cons]
    cases h : gsaPrnAt parts k with
    | none =>
      simpa using ih acc
    | some x =>
      rw [ih]
      simp [List.toFinset_cons, Finset.insert_union, Finset.union_insert]

theorem gsvFold_sv (talker : List Char) (parts : List (List Char))
    (acc : List JsNum × Finset (Option ℤ)) :
    (gsvFold talker parts acc).2 = acc.2 ∪ gsvPrns talker parts := by
  unfold gsvFold gsvPrns
  generalize gsvGroups parts = ks
  induction ks generalizing acc with
  | nil => simp
  | cons k ks ih =>
    simp only [List.foldl_cons, List.filterMap_cons]
    cases h : gsvEntryAt talker parts k with
    | none =>
      simpa using ih acc
    | some e =>
      rw [ih]
      simp [List.toFinset_cons, Finset.insert_union, Finset.union_insert]

theorem processGSA_used (l : List Char) (s : ParserState) :
    (processGSA l s).currentEpochGpsUsedSvs =
      s.currentEpochGpsUsedSvs ∪ gsaPrnsOf l := by
  unfold processGSA gsaPrnsOf
  dsimp only
  repeat' split
  all_goals simp [gsaFold_eq]

theorem processGSV_sv (l : List Char) (s : ParserState) :
    (processGSV l s).currentEpochGpsSvs =
      s.currentEpochGpsSvs ∪ gsvPrnsOf l := by
  unfold processGSV gsvPrnsOf
  dsimp only
  repeat' split
  all_goals simp [gsvFold_sv]

theorem processGSV_used (l : List Char) (u : ParserState) :
    (processGSV l u).currentEpochGpsUsedSvs = u.currentEpochGpsUsedSvs := by
  conv_lhs => rw [processGSV_shape]

theorem processGSA_sv (l : List Char) (u : ParserState) :
    (processGSA l u).currentEpochGpsSvs = u.currentEpochGpsSvs := by
  conv_lhs => rw [processGSA_shape]

theorem processNmeaLine_sets (l : List Char) (s : ParserState)
    (h : ggaTriggered l = false) :
    (processNmeaLine l s).currentEpochGpsUsedSvs =
      s.currentEpochGpsUsedSvs ∪ gsaPrnsOf l ∧
    (processNmeaLine l s).currentEpochGpsSvs =
      s.currentEpochGpsSvs ∪ gsvPrnsOf l := by
  unfold processNmeaLine
  dsimp only
  rw [processGGA_not_triggered _ _ h]
  constructor
  · rw [processGSV_used, processGSA_used]
    repeat' split
    all_goals rfl
  · rw [processGSV_sv, processGSA_sv]
    repeat' split
    all_goals rfl

end GNSS

namespace GNSS

theorem processUbx_shape (c id len : ℕ) (p : List ℕ) (s : ParserState) :
    processUbx c id len p s =
      { s with
        messageCounts := (processUbx c id len p s).messageCounts
        currentEpoch := { s.currentEpoch with
          spoofingState := (processUbx c id len p s).currentEpoch.spoofingState
          secSigState := (processUbx c id len p s).currentEpoch.secSigState
          gpsL1Cn0 := (processUbx c id len p s).currentEpoch.gpsL1Cn0
          fixType := (processUbx c id len p s).currentEpoch.fixType
          gnssFixOK := (processUbx c id len p s).currentEpoch.gnssFixOK } } := by
  unfold processUbx
  dsimp only
  repeat' split
  all_goals rfl

theorem processUbx_spoof (c id len : ℕ) (p : List ℕ) (s : ParserState)
    (h : ¬(c = 1 ∧ id = 3 ∧ 16 ≤ len)) :
    (processUbx c id len p s).currentEpoch.spoofingState =
      s.currentEpoch.spoofingState := by
  unfold processUbx
  dsimp only
  repeat' split
  all_goals first
    | rfl
    | simp_all

theorem processSbfBlock_shape (bn : ℕ) (p : List ℕ) (s : ParserState) :
    processSbfBlock bn p s =
      { s with
        messageCounts := (processSbfBlock bn p s).messageCounts
        currentEpochGpsSnrs := (processSbfBlock bn p s).currentEpochGpsSnrs
        currentEpochGpsSvs := (processSbfBlock bn p s).currentEpochGpsSvs
        currentEpoch := { s.currentEpoch with
          secSigState := (processSbfBlock bn p s).currentEpoch.secSigState
          lat := (processSbfBlock bn p s).currentEpoch.lat
          lon := (processSbfBlock bn p s).currentEpoch.lon
          fixQuality := (processSbfBlock bn p s).currentEpoch.fixQuality } } := by
  unfold processSbfBlock
  dsimp only
  repeat' split
  all_goals rfl

theorem processSbfNrSv_shape (bn : ℕ) (p : List ℕ) (s : ParserState) :
    processSbfNrSv bn p s =
      { s with currentEpoch := { s.currentEpoch with
          satellitesUsed := (processSbfNrSv bn p s).currentEpoch.satellitesUsed } } := by
  unfold processSbfNrSv
  dsimp only
  repeat' split
  all_goals rfl

theorem flushEpoch_spoof (s : ParserState) :
    (flushEpoch s).currentEpoch.spoofingState = some 0 := rfl

theorem processGGA_spoof (l : List Char) (s : ParserState) :
    (processGGA l s).currentEpoch.spoofingState = s.currentEpoch.spoofingState ∨
    (processGGA l s).currentEpoch.spoofingState = some 0 := by
  unfold processGGA
  dsimp only
  repeat' split
  all_goals simp [flushEpoch_spoof]

theorem sbfTimeStep_spoof (tow : ℤ) (s : ParserState) :
    (sbfTimeStep tow s).currentEpoch.spoofingState = s.currentEpoch.spoofingState ∨
    (sbfTimeStep tow s).currentEpoch.spoofingState = some 0 := by
  unfold sbfTimeStep
  dsimp only
  repeat' split
  all_goals simp [flushEpoch_spoof]

end GNSS

namespace GNSS

theorem processGSA_epoch (l : List Char) (u : ParserState) :
    (processGSA l u).currentEpoch = u.currentEpoch := by
  conv_lhs => rw [processGSA_shape]

theorem processGSV_epoch (l : List Char) (u : ParserState) :
    (processGSV l u).currentEpoch = u.currentEpoch := by
  conv_lhs => rw [processGSV_shape]

theorem processSbfBlock_spoof (bn : ℕ) (p : List ℕ) (u : ParserState) :
    (processSbfBlock bn p u).currentEpoch.spoofingState =
      u.currentEpoch.spoofingState := by
  conv_lhs => rw [processSbfBlock_shape]

theorem processSbfNrSv_spoof (bn : ℕ) (p : List ℕ) (u : ParserState) :
    (processSbfNrSv bn p u).currentEpoch.spoofingState =
      u.currentEpoch.spoofingState := by
  conv_lhs => rw [processSbfNrSv_shape]

theorem processNmeaLine_spoof (l : List Char) (s : ParserState) :
    (processNmeaLine l s).currentEpoch.spoofingState =
      s.currentEpoch.spoofingState ∨
    (processNmeaLine l s).currentEpoch.spoofingState = some 0 := by
  unfold processNmeaLine
  dsimp only
  rcases processGGA_spoof l (processGSV l (processGSA l _)) with hg | hg
  · rw [hg, processGSV_epoch, processGSA_epoch]
    repeat' split
    all_goals left ; rfl
  · right
    exact hg

theorem parseStepTail_spoof (buf : List ℕ) (s : ParserState)
    (h : ¬ navStatusAt buf s) :
    (parseStepTail buf s).currentEpoch.spoofingState = s.currentEpoch.spoofingState ∨
    (parseStepTail buf s).currentEpoch.spoofingState = some 0 := by
  unfold parseStepTail
  dsimp only
  split
  next hubx =>
    left
    rw [processUbx_spoof]
    intro ⟨hc, hid, hlen⟩
    exact h ⟨hubx.1, hubx.2.1, hubx.2.2.1, hubx.2.2.2.1, hubx.2.2.2.2, hc, hid, hlen⟩
  next =>
    split
    next hsbf =>
      rw [processSbfNrSv_spoof, processSbfBlock_spoof]
      exact sbfTimeStep_spoof _ _
    next =>
      left
      rfl

theorem parseStep_spoof (buf : List ℕ) (s : ParserState)
    (h : ¬ navStatusAt buf s) :
    (parseStep buf s).currentEpoch.spoofingState = s.currentEpoch.spoofingState ∨
    (parseStep buf s).currentEpoch.spoofingState = some 0 := by
  unfold parseStep
  dsimp only
  split
  · split
    · exact processNmeaLine_spoof _ _
    · exact parseStepTail_spoof _ _ h
  · exact parseStepTail_spoof _ _ h

end GNSS

namespace GNSS

/-! ### Branch equations for the scanner step -/

theorem parseStep_nmea (buf : List ℕ) (s : ParserState) (le : ℕ)
    (hb : buf.getD s.i 0 = 36)
    (hn : buf.length ≤ s.i + 1 ∨ buf.getD (s.i + 1) 0 ≠ 64)
    (hl : findLineEnd buf s.i = some le) :
    parseStep buf s =
      { processNmeaLine (trimChars (decodeBytes ((buf.drop s.i).take (le - s.i)))) s
        with i := le + 1 } := by
  unfold parseStep
  dsimp only
  rw [if_pos ⟨hb, hn⟩, hl]

theorem parseStep_nmea_none (buf : List ℕ) (s : ParserState)
    (hl : findLineEnd buf s.i = none) :
    parseStep buf s = parseStepTail buf s := by
  unfold parseStep
  dsimp only
  split
  · rw [hl]
  · rfl

theorem parseStep_not_nmea (buf : List ℕ) (s : ParserState)
    (h : ¬(buf.getD s.i 0 = 36 ∧
      (buf.length ≤ s.i + 1 ∨ buf.getD (s.i + 1) 0 ≠ 64))) :
    parseStep buf s = parseStepTail buf s := by
  unfold parseStep
  dsimp only
  rw [if_neg h]

theorem parseStepTail_ubx (buf : List ℕ) (s : ParserState)
    (h : buf.getD s.i 0 = 181 ∧ s.i + 1 < buf.length ∧ buf.getD (s.i + 1) 0 = 98 ∧
      s.i + 6 ≤ buf.length ∧
      s.i + 6 + (buf.getD (s.i + 4) 0 + 256 * buf.getD (s.i + 5) 0) + 2 ≤ buf.length) :
    parseStepTail buf s =
      { processUbx (buf.getD (s.i + 2) 0) (buf.getD (s.i + 3) 0)
          (buf.getD (s.i + 4) 0 + 256 * buf.getD (s.i + 5) 0)
          ((buf.drop (s.i + 6)).take (buf.getD (s.i + 4) 0 + 256 * buf.getD (s.i + 5) 0)) s
        with i := s.i + 6 + (buf.getD (s.i + 4) 0 + 256 * buf.getD (s.i + 5) 0) + 2 } := by
  unfold parseStepTail
  dsimp only
  rw [if_pos h]

theorem parseStepTail_sbf (buf : List ℕ) (s : ParserState)
    (hu : ¬(buf.getD s.i 0 = 181 ∧ s.i + 1 < buf.length ∧ buf.getD (s.i + 1) 0 = 98 ∧
      s.i + 6 ≤ buf.length ∧
      s.i + 6 + (buf.getD (s.i + 4) 0 + 256 * buf.getD (s.i + 5) 0) + 2 ≤ buf.length))
    (hs : buf.getD s.i 0 = 36 ∧ s.i + 1 < buf.length ∧ buf.getD (s.i + 1) 0 = 64 ∧
      s.i + 8 ≤ buf.length ∧
      s.i + (buf.getD (s.i + 6) 0 + 256 * buf.getD (s.i + 7) 0) ≤ buf.length) :
    parseStepTail buf s =
      { processSbfNrSv ((buf.getD (s.i + 4) 0 + 256 * buf.getD (s.i + 5) 0) % 8192)
          ((buf.drop (s.i + 8)).take ((buf.getD (s.i + 6) 0 + 256 * buf.getD (s.i + 7) 0) - 8))
          (processSbfBlock ((buf.getD (s.i + 4) 0 + 256 * buf.getD (s.i + 5) 0) % 8192)
            ((buf.drop (s.i + 8)).take ((buf.getD (s.i + 6) 0 + 256 * buf.getD (s.i + 7) 0) - 8))
            (sbfTimeStep
              (towOf ((buf.drop (s.i + 8)).take
                ((buf.getD (s.i + 6) 0 + 256 * buf.getD (s.i + 7) 0) - 8))) s))
        with i := s.i + (buf.getD (s.i + 6) 0 + 256 * buf.getD (s.i + 7) 0) } := by
  unfold parseStepTail
  dsimp only
  rw [if_neg hu, if_pos hs]

theorem parseStepTail_resync (buf : List ℕ) (s : ParserState)
    (hu : ¬(buf.getD s.i 0 = 181 ∧ s.i + 1 < buf.length ∧ buf.getD (s.i + 1) 0 = 98 ∧
      s.i + 6 ≤ buf.length ∧
      s.i + 6 + (buf.getD (s.i + 4) 0 + 256 * buf.getD (s.i + 5) 0) + 2 ≤ buf.length))
    (hs : ¬(buf.getD s.i 0 = 36 ∧ s.i + 1 < buf.length ∧ buf.getD (s.i + 1) 0 = 64 ∧
      s.i + 8 ≤ buf.length ∧
      s.i + (buf.getD (s.i + 6) 0 + 256 * buf.getD (s.i + 7) 0) ≤ buf.length)) :
    parseStepTail buf s = { s with i := s.i + 1 } := by
  unfold parseStepTail
  dsimp only
  rw [if_neg hu, if_neg hs]

/-- `sbfTimeStep` when the time of week is unchanged and a timestamp is
already present: only the ghost record grows. -/
theorem sbfTimeStep_same (tow : ℤ) (s : ParserState)
    (hsent : tow ≠ 4294967295) (h : s.lastSbfTow = tow)
    (ht : s.currentEpoch.timestamp ≠ none) :
    sbfTimeStep tow s =
      { s with
        lastSbfTow := tow
        seenTimes := s.seenTimes ++ [some (qDiv (qInt tow) (qInt 1000))] } := by
  unfold sbfTimeStep
  dsimp only
  rw [if_pos hsent]
  split
  next hflush => exact absurd h.symm hflush.2
  next =>
    dsimp only

end GNSS

namespace GNSS

theorem processSbfBlock_tow (bn : ℕ) (p : List ℕ) (u : ParserState) :
    (processSbfBlock bn p u).lastSbfTow = u.lastSbfTow := by
  conv_lhs => rw [processSbfBlock_shape]

theorem processSbfNrSv_tow (bn : ℕ) (p : List ℕ) (u : ParserState) :
    (processSbfNrSv bn p u).lastSbfTow = u.lastSbfTow := by
  conv_lhs => rw [processSbfNrSv_shape]

theorem processSbfBlock_ts (bn : ℕ) (p : List ℕ) (u : ParserState) :
    (processSbfBlock bn p u).currentEpoch.timestamp = u.currentEpoch.timestamp := by
  conv_lhs => rw [processSbfBlock_shape]

theorem processSbfNrSv_ts (bn : ℕ) (p : List ℕ) (u : ParserState) :
    (processSbfNrSv bn p u).currentEpoch.timestamp = u.currentEpoch.timestamp := by
  conv_lhs => rw [processSbfNrSv_shape]

theorem c3_inv_step (s : ParserState) (h1 : s.i = 0) (h2 : s.lastSbfTow = 0)
    (h3 : s.currentEpoch.timestamp = some "00:00:00".toList) :
    (parseStep c3buf s).i = 0 ∧ (parseStep c3buf s).lastSbfTow = 0 ∧
    (parseStep c3buf s).currentEpoch.timestamp = some "00:00:00".toList := by
  have htow : towOf ((c3buf.drop (s.i + 8)).take
      ((c3buf.getD (s.i + 6) 0 + 256 * c3buf.getD (s.i + 7) 0) - 8)) = 0 := by
    rw [h1]
    rfl
  have hsame := sbfTimeStep_same (towOf ((c3buf.drop (s.i + 8)).take
      ((c3buf.getD (s.i + 6) 0 + 256 * c3buf.getD (s.i + 7) 0) - 8))) s
    (by rw [htow]; decide) (by rw [h2, htow]) (by rw [h3]; simp)
  have hstep : parseStep c3buf s = parseStepTail c3buf s := by
    apply parseStep_not_nmea
    rw [h1]
    decide
  have htail := parseStepTail_sbf c3buf s (by rw [h1]; decide) (by rw [h1]; decide)
  rw [hstep, htail]
  refine ⟨?_, ?_, ?_⟩
  · dsimp only
    rw [h1]
    decide
  · dsimp only
    rw [processSbfNrSv_tow, processSbfBlock_tow, hsame]
    dsimp only
    exact htow
  · dsimp only
    rw [processSbfNrSv_ts, processSbfBlock_ts, hsame]
    dsimp only
    exact h3

theorem c3_first_step : (parseStep c3buf initState).i = 0 ∧
    (parseStep c3buf initState).lastSbfTow = 0 ∧
    (parseStep c3buf initState).currentEpoch.timestamp = some "00:00:00".toList := by
  refine ⟨rfl, ?_, ?_⟩ <;> rfl

end GNSS

namespace GNSS

theorem c3_loop_inv (n : ℕ) : ∀ s : ParserState, s.i = 0 → s.lastSbfTow = 0 →
    s.currentEpoch.timestamp = some "00:00:00".toList →
    (parseLoop c3buf n s).i = 0 := by
  induction n with
  | zero =>
    intro s h1 _ _
    exact h1
  | succ n ih =>
    intro s h1 h2 h3
    unfold parseLoop
    rw [if_pos (by rw [h1]; decide)]
    obtain ⟨g1, g2, g3⟩ := c3_inv_step s h1 h2 h3
    exact ih _ g1 g2 g3

/-- Claim C3 is false on the code: on the 8-byte buffer whose SBF header
declares a total block length of 0, the cursor advances by 0 bytes each
iteration, so the scanning loop never terminates and `parseGNSSLog` produces
no result no matter how much fuel it is given.  (The UBX and NMEA advances
are positive, but the SBF advance is the block's own declared length, which
may be 0.) -/
theorem c3_nonterminating : ∀ n : ℕ, parseGNSSLog c3buf n = none := by
  intro n
  unfold parseGNSSLog
  dsimp only
  cases n with
  | zero => rfl
  | succ n =>
    unfold parseLoop
    rw [if_pos (by decide : initState.i < c3buf.length)]
    obtain ⟨g1, g2, g3⟩ := c3_first_step
    rw [if_neg]
    intro hle
    rw [c3_loop_inv n _ g1 g2 g3] at hle
    exact absurd hle (by decide)

end GNSS

namespace GNSS

/-! ### Claim theorems -/

/-- Claim C5: at a flush that appends a record, the emitted used-in-fix
satellite count equals the size of the deduplicated active-satellite set when
that set is non-empty, and otherwise equals the draft's provisional
total-satellites value; so the active-set size overrides any provisional
total. -/
theorem claim_C5 (s : ParserState) (ts : JsNum)
    (h : s.currentEpoch.timeSeconds = some ts) :
    (flushEpoch s).dataPoints = s.dataPoints ++ [flushRecord s ts] ∧
    (s.currentEpochGpsUsedSvs ≠ ∅ →
      (flushRecord s ts).satellitesUsed = (s.currentEpochGpsUsedSvs.card : ℤ)) ∧
    (s.currentEpochGpsUsedSvs = ∅ →
      (flushRecord s ts).satellitesUsed = s.currentEpoch.satellitesUsed.getD 0) := by
  refine ⟨by simp [flushEpoch, h], ?_, ?_⟩
  · intro hne
    simp only [flushRecord]
    rw [if_pos (Finset.card_pos.mpr (Finset.nonempty_iff_ne_empty.mpr hne))]
  · intro he
    simp only [flushRecord, he]
    cases hv : s.currentEpoch.satellitesUsed with
    | none => simp [jsOrInt]
    | some v =>
      by_cases hz : v = 0 <;> simp [jsOrInt, hz]

/-- Witness for C5 at a concrete state with an empty used set and a draft
fallback of 0. -/
theorem claim_C5_witness :
    (flushEpoch wState).dataPoints = wState.dataPoints ++ [flushRecord wState (some 0)] ∧
    (flushRecord wState (some 0)).satellitesUsed =
      wState.currentEpoch.satellitesUsed.getD 0 :=
  ⟨(claim_C5 wState (some 0) rfl).1, (claim_C5 wState (some 0) rfl).2.2 rfl⟩

/-- Claim C9: a flush whose draft has no populated time-offset appends no
record and performs only the reset: the sample list and both satellite sets
are cleared, a fresh draft is started pre-seeded from the carry-forward
state, and everything else (records, carry-forward values, histogram, text,
cursor, ghost trace) is untouched. -/
theorem claim_C9 (s : ParserState) (h : s.currentEpoch.timeSeconds = none) :
    (flushEpoch s).dataPoints = s.dataPoints ∧
    (flushEpoch s).currentEpochGpsSnrs = [] ∧
    (flushEpoch s).currentEpochGpsSvs = ∅ ∧
    (flushEpoch s).currentEpochGpsUsedSvs = ∅ ∧
    (flushEpoch s).currentEpoch =
      { spoofingState := some 0
        secSigState := some s.lastSecSigState
        gpsL1Cn0 := some s.lastGpsL1Cn0
        gpsTop3AvgCn0 := some 0
        gpsTrackedCount := some 0
        satellitesUsed := some 0
        fixType := some s.lastFixType
        gnssFixOK := some s.lastGnssFixOK } ∧
    (flushEpoch s).lastSecSigState = s.lastSecSigState ∧
    (flushEpoch s).lastGpsL1Cn0 = s.lastGpsL1Cn0 ∧
    (flushEpoch s).lastFixType = s.lastFixType ∧
    (flushEpoch s).lastGnssFixOK = s.lastGnssFixOK ∧
    (flushEpoch s).startTime = s.startTime ∧
    (flushEpoch s).lastSbfTow = s.lastSbfTow ∧
    (flushEpoch s).messageCounts = s.messageCounts ∧
    (flushEpoch s).extractedText = s.extractedText ∧
    (flushEpoch s).seenTimes = s.seenTimes ∧
    (flushEpoch s).i = s.i := by
  simp [flushEpoch, h]

/-- Witness for C9 at the initial state (whose draft has no time offset). -/
theorem claim_C9_witness :
    (flushEpoch initState).dataPoints = initState.dataPoints ∧
    (flushEpoch initState).currentEpochGpsSnrs = [] ∧
    (flushEpoch initState).currentEpochGpsSvs = ∅ ∧
    (flushEpoch initState).currentEpochGpsUsedSvs = ∅ :=
  ⟨(claim_C9 initState rfl).1, (claim_C9 initState rfl).2.1,
   (claim_C9 initState rfl).2.2.1, (claim_C9 initState rfl).2.2.2.1⟩

/-- Claim C2, amended.  At a flush that appends a record: the emitted
secondary-spoof-state equals the draft's value when that value is defined and
nonzero, and the carry-forward value otherwise (a freshly set 0 is lost); the
emitted vendor-A-signal average equals the carry-forward value whenever that
is nonzero — even when the draft was freshly set this epoch — and the
draft's value only when the carry-forward value is 0; the emitted fix-type
and fix-valid equal the draft's value when defined, else the carry-forward
value; and the carry-forward state is updated from the draft's defined fields
only after the record is appended (the appended record sees the old
carry-forward values). -/
theorem claim_C2_amended (s : ParserState) (ts : JsNum)
    (h : s.currentEpoch.timeSeconds = some ts) :
    (flushEpoch s).dataPoints = s.dataPoints ++ [flushRecord s ts] ∧
    (∀ v, s.currentEpoch.secSigState = some v → v ≠ 0 →
      (flushRecord s ts).secSigState = v) ∧
    (∀ v, s.currentEpoch.secSigState = some v → v = 0 →
      (flushRecord s ts).secSigState = s.lastSecSigState) ∧
    (s.currentEpoch.secSigState = none →
      (flushRecord s ts).secSigState = s.lastSecSigState) ∧
    (s.lastGpsL1Cn0 ≠ 0 → (flushRecord s ts).gpsL1Cn0 = some s.lastGpsL1Cn0) ∧
    (s.lastGpsL1Cn0 = 0 → (flushRecord s ts).gpsL1Cn0 = s.currentEpoch.gpsL1Cn0) ∧
    (∀ v, s.currentEpoch.fixType = some v → (flushRecord s ts).fixType = v) ∧
    (s.currentEpoch.fixType = none → (flushRecord s ts).fixType = s.lastFixType) ∧
    (∀ b, s.currentEpoch.gnssFixOK = some b → (flushRecord s ts).gnssFixOK = b) ∧
    (s.currentEpoch.gnssFixOK = none →
      (flushRecord s ts).gnssFixOK = s.lastGnssFixOK) ∧
    (flushEpoch s).lastSecSigState = s.currentEpoch.secSigState.getD s.lastSecSigState ∧
    (flushEpoch s).lastGpsL1Cn0 = s.currentEpoch.gpsL1Cn0.getD s.lastGpsL1Cn0 ∧
    (flushEpoch s).lastFixType = s.currentEpoch.fixType.getD s.lastFixType ∧
    (flushEpoch s).lastGnssFixOK = s.currentEpoch.gnssFixOK.getD s.lastGnssFixOK := by
  refine ⟨by simp [flushEpoch, h], ?_, ?_, ?_, ?_, ?_, ?_, ?_, ?_, ?_,
    by simp [flushEpoch, h], by simp [flushEpoch, h], by simp [flushEpoch, h],
    by simp [flushEpoch, h]⟩
  · intro v hv hnz
    simp [flushRecord, jsOrNat, hv, hnz]
  · intro v hv hz
    simp [flushRecord, jsOrNat, hv, hz]
  · intro hv
    simp [flushRecord, jsOrNat, hv]
  · intro hnz
    simp [flushRecord, hnz]
  · intro hz
    simp [flushRecord, hz]
  · intro v hv
    simp [flushRecord, hv]
  · intro hv
    simp [flushRecord, hv]
  · intro b hb
    simp [flushRecord, hb]
  · intro hb
    simp [flushRecord, hb]

/-- Witness for the amended C2: at `wState` the draft's secondary-spoof-state
is the (defined) value 0, so the emitted value falls back to the carry
state. -/
theorem claim_C2_amended_witness :
    (flushEpoch wState).dataPoints = wState.dataPoints ++ [flushRecord wState (some 0)] ∧
    (flushRecord wState (some 0)).secSigState = wState.lastSecSigState ∧
    (flushEpoch wState).lastGpsL1Cn0 =
      wState.currentEpoch.gpsL1Cn0.getD wState.lastGpsL1Cn0 :=
  ⟨(claim_C2_amended wState (some 0) rfl).1,
   (claim_C2_amended wState (some 0) rfl).2.2.1 0 rfl rfl,
   (claim_C2_amended wState (some 0) rfl).2.2.2.2.2.2.2.2.2.2.2.1⟩

set_option maxRecDepth 4000 in
/-- Counterexample to claim C2 as stated.  In the buffer `c2buf`, the second
epoch's decoders freshly set the secondary-spoof-state to 0 (a UBX-SEC-SIG
frame) and the vendor-A signal average to 25 (a UBX-NAV-SIG frame) — the
draft visibly holds `some 0` and `some 25` just before the flush — yet the
second emitted record reports secondary-spoof-state 3 and vendor-A signal 30,
the previous epoch's values, not the freshly set ones. -/
theorem claim_C2_counterexample :
    (parseLoop c2buf 4 initState).currentEpoch.secSigState = some 3 ∧
    (parseLoop c2buf 6 initState).currentEpoch.secSigState = some 0 ∧
    (parseLoop c2buf 6 initState).currentEpoch.gpsL1Cn0 = some 25 ∧
    (parseLoop c2buf 6 initState).lastSecSigState = 3 ∧
    (parseLoop c2buf 6 initState).lastGpsL1Cn0 = 30 ∧
    (parseGNSSLog c2buf 10).map (fun r => r.data.map fun d =>
      (d.secSigState, d.gpsL1Cn0)) =
      some [(3, some 30), (3, some 30), (0, some 25)] ∧
    (3 : ℕ) ≠ 0 ∧ some (30 : ℚ) ≠ some (25 : ℚ) := by
  refine ⟨rfl, rfl, rfl, rfl, rfl, rfl, by decide, by decide⟩

/-- Claim C10: the primary spoof-state is not carried forward.  Every flush
restarts the draft with primary spoof-state 0 (as does the initial state);
when a record is appended its primary spoof-state is exactly the draft's; and
a scan step whose cursor is not at a complete UBX NAV-STATUS frame either
leaves the draft's primary spoof-state unchanged or resets it to 0 (via a
flush) — so an epoch in which no NAV-STATUS frame arrives is emitted with
primary spoof-state 0 regardless of what the previous epoch reported. -/
theorem claim_C10 (buf : List ℕ) (s : ParserState) (ts : JsNum) :
    (flushEpoch s).currentEpoch.spoofingState = some 0 ∧
    initState.currentEpoch.spoofingState = some 0 ∧
    (s.currentEpoch.timeSeconds = some ts →
      (flushEpoch s).dataPoints = s.dataPoints ++ [flushRecord s ts] ∧
      (flushRecord s ts).spoofingState = s.currentEpoch.spoofingState) ∧
    (¬ navStatusAt buf s →
      (parseStep buf s).currentEpoch.spoofingState = s.currentEpoch.spoofingState ∨
      (parseStep buf s).currentEpoch.spoofingState = some 0) := by
  refine ⟨flushEpoch_spoof s, rfl, ?_, parseStep_spoof buf s⟩
  intro h
  exact ⟨by simp [flushEpoch, h], rfl⟩

/-- Witness for C10 at the empty buffer and a concrete state. -/
theorem claim_C10_witness :
    (flushEpoch wState).currentEpoch.spoofingState = some 0 ∧
    ((flushEpoch wState).dataPoints = wState.dataPoints ++ [flushRecord wState (some 0)] ∧
      (flushRecord wState (some 0)).spoofingState = wState.currentEpoch.spoofingState) ∧
    ((parseStep [] wState).currentEpoch.spoofingState = wState.currentEpoch.spoofingState ∨
      (parseStep [] wState).currentEpoch.spoofingState = some 0) :=
  ⟨(claim_C10 [] wState (some 0)).1, (claim_C10 [] wState (some 0)).2.2.1 rfl,
   (claim_C10 [] wState (some 0)).2.2.2 (by decide)⟩

/-- Claim C7: within a single epoch the satellite sets deduplicate.
Processing two non-flushing lines extends the used-in-fix set and the tracked
set by plain set unions of the PRNs the lines mention, so a PRN repeated
across sentences (or across groups within one sentence) contributes exactly
one element to the corresponding set. -/
theorem claim_C7 (s : ParserState) (l1 l2 : List Char)
    (h1 : ggaTriggered l1 = false) (h2 : ggaTriggered l2 = false) :
    (processNmeaLine l2 (processNmeaLine l1 s)).currentEpochGpsUsedSvs =
      s.currentEpochGpsUsedSvs ∪ gsaPrnsOf l1 ∪ gsaPrnsOf l2 ∧
    (processNmeaLine l2 (processNmeaLine l1 s)).currentEpochGpsSvs =
      s.currentEpochGpsSvs ∪ gsvPrnsOf l1 ∪ gsvPrnsOf l2 := by
  obtain ⟨a1, b1⟩ := processNmeaLine_sets l1 s h1
  obtain ⟨a2, b2⟩ := processNmeaLine_sets l2 (processNmeaLine l1 s) h2
  rw [a2, a1, b2, b1]
  exact ⟨rfl, rfl⟩

/-- Witness for C7: the scenario sentence listing PRN 03 twice, processed
twice, leaves a used-in-fix set of size 1. -/
theorem claim_C7_witness :
    ggaTriggered c7line = false ∧
    (processNmeaLine c7line (processNmeaLine c7line initState)).currentEpochGpsUsedSvs =
      initState.currentEpochGpsUsedSvs ∪ gsaPrnsOf c7line ∪ gsaPrnsOf c7line ∧
    (processNmeaLine c7line (processNmeaLine c7line initState)).currentEpochGpsUsedSvs.card
      = 1 := by
  refine ⟨by rfl, (claim_C7 initState c7line c7line (by rfl) (by rfl)).1, by rfl⟩

/-- Claim C8: parsing the single terminated GGA sentence of the scenario
yields exactly one epoch record with timestamp `12:35:19`, offset 0, latitude
exactly 48.1173, longitude 691/60 ≈ 11.5167, fix quality 1, and 8 satellites
used (the fallback from the sentence's total-satellites field). -/
theorem claim_C8 :
    (parseGNSSLog c8buf 2).map (fun r => r.data.map fun d =>
      (d.timestamp, d.timeSeconds, d.lat, d.lon, d.fixQuality, d.satellitesUsed)) =
      some [(some "12:35:19".toList, some 0, some (mkRat 481173 10000),
        some (mkRat 691 60), some 1, 8)] ∧
    (mkRat 481173 10000 : ℚ) = 48.1173 ∧
    |(mkRat 691 60 : ℚ) - 11.5167| < 1 / 10000 := by
  refine ⟨by rfl, ?_, ?_⟩
  · rw [Rat.mkRat_eq_div]
    norm_num
  · rw [Rat.mkRat_eq_div]
    rw [abs_sub_lt_iff]
    norm_num

/-- Claim C1 fails on the code (a code bug): the do-not-use time-of-week
`0xFFFFFFFF` is read through JavaScript signed 32-bit `|`/`<<`, producing
`-1`, so the guard `tow !== 4294967295` can never reject it.  On `c1buf`
(one block with TOW 1000 followed by one block with the sentinel TOW), the
sentinel block *does* trigger an epoch flush (one record appears), *does*
overwrite the previously seen time-of-week (with `-1`), and *does* seed the
draft's timestamp/offset fields (with the garbage `-1:-1:-1` and offset
−1.001 s) — the opposite of what the claim (and the code's own comment
"If TOW changed and is valid") requires. -/
theorem claim_C1_bug :
    towOf [255, 255, 255, 255] = -1 ∧
    towOf [255, 255, 255, 255] ≠ 4294967295 ∧
    (parseLoop c1buf 1 initState).dataPoints.length = 0 ∧
    (parseLoop c1buf 1 initState).lastSbfTow = 1000 ∧
    (parseLoop c1buf 2 initState).dataPoints.length = 1 ∧
    (parseLoop c1buf 2 initState).lastSbfTow = -1 ∧
    (parseLoop c1buf 2 initState).currentEpoch.timestamp = some "-1:-1:-1".toList ∧
    (parseLoop c1buf 2 initState).currentEpoch.timeSeconds =
      some (some (mkRat (-1001) 1000)) := by
  refine ⟨rfl, by decide, rfl, rfl, rfl, rfl, rfl, rfl⟩

/-- Counterexample to claim C4 as stated: on two GGA sentences whose times
decrease, the second emitted record's time-offset is −3600, which is
negative; the claim's unconditional non-negativity fails. -/
theorem claim_C4_counterexample :
    (parseGNSSLog c4buf 3).map (fun r => r.data.map fun d => d.timeSeconds) =
      some [some 0, some (mkRat (-3600) 1)] ∧
    ¬ (0 : ℚ) ≤ mkRat (-3600) 1 := by
  exact ⟨by rfl, by decide⟩

/-- Counterexample to claim C6 as stated: the sample 10.25 (reachable as the
vendor-B conversion `1 × 0.25 + 10`) forms a one-element sample list whose
plain average is 10.25, but `calculateTop3Avg` returns 10.3 because the code
rounds through `toFixed(1)`. -/
theorem claim_C6_counterexample :
    ([some (mkRat 41 4)] : List JsNum).length = 1 ∧
    calculateTop3Avg [some (mkRat 41 4)] = some (mkRat 103 10) ∧
    mkRat 103 10 ≠ mkRat 41 4 := by
  refine ⟨rfl, by rfl, by decide⟩

end GNSS

namespace GNSS

/-! ### The descending sort used by `calculateTop3Avg` -/

theorem qInsertDesc_perm (a : ℚ) (l : List ℚ) : (qInsertDesc a l).Perm (a :: l) := by
  induction l with
  | nil => exact List.Perm.refl _
  | cons b t ih =>
    unfold qInsertDesc
    split
    · exact List.Perm.refl _
    · exact (ih.cons b).trans (List.Perm.swap a b t)

theorem qSortDesc_perm (l : List ℚ) : (qSortDesc l).Perm l := by
  induction l with
  | nil => exact List.Perm.refl _
  | cons a t ih => exact (qInsertDesc_perm a (qSortDesc t)).trans (ih.cons a)

theorem qInsertDesc_pairwise (a : ℚ) (l : List ℚ)
    (h : l.Pairwise (fun x y => y ≤ x)) :
    (qInsertDesc a l).Pairwise (fun x y => y ≤ x) := by
  induction l with
  | nil => simp [qInsertDesc]
  | cons b t ih =>
    unfold qInsertDesc
    rw [List.pairwise_cons] at h
    split
    next hba =>
      refine List.Pairwise.cons ?_ (List.pairwise_cons.mpr h)
      intro y hy
      rcases List.mem_cons.mp hy with rfl | hyt
      · exact hba
      · exact le_trans (h.1 y hyt) hba
    next hba =>
      refine List.Pairwise.cons ?_ (ih h.2)
      intro y hy
      have hy' := (qInsertDesc_perm a t).mem_iff.mp hy
      rcases List.mem_cons.mp hy' with rfl | hyt
      · exact le_of_not_le hba
      · exact h.1 y hyt

theorem qSortDesc_pairwise (l : List ℚ) :
    (qSortDesc l).Pairwise (fun x y => y ≤ x) := by
  induction l with
  | nil => simp [qSortDesc]
  | cons a t ih => exact qInsertDesc_pairwise a (qSortDesc t) ih

theorem jsInsertDesc_map (a : ℚ) (l : List ℚ) :
    jsInsertDesc (some a) (l.map some) = (qInsertDesc a l).map some := by
  induction l with
  | nil => rfl
  | cons b t ih =>
    unfold jsInsertDesc qInsertDesc
    simp only [List.map_cons, jsDescLe, decide_eq_true_eq]
    split
    · rfl
    · simp [ih]

theorem jsSortDesc_map (l : List ℚ) :
    jsSortDesc (l.map some) = (qSortDesc l).map some := by
  induction l with
  | nil => rfl
  | cons a t ih =>
    unfold jsSortDesc qSortDesc
    simp only [List.map_cons]
    rw [show jsSortDesc (t.map some) = (qSortDesc t).map some from ih]
    exact jsInsertDesc_map a (qSortDesc t)

theorem jsFoldSum (l : List ℚ) (a : ℚ) :
    (l.map some).foldl jsAdd (some a) = some (a + l.sum) := by
  induction l generalizing a with
  | nil => simp
  | cons b t ih =>
    simp only [List.map_cons, List.foldl_cons, jsAdd, qAdd_eq, List.sum_cons]
    rw [ih (a + b)]
    ring_nf

theorem calculateTop3Avg_map (ls : List ℚ) (h : ls ≠ []) :
    calculateTop3Avg (ls.map some) =
      some (roundTo1 (((qSortDesc ls).take 3).sum /
        (((qSortDesc ls).take 3).length : ℚ))) := by
  unfold calculateTop3Avg
  rw [if_neg (by simpa using h)]
  dsimp only
  rw [jsSortDesc_map, ← List.map_take, jsFoldSum, List.length_map]
  simp only [jsDiv, jsToFixed1, qDiv_eq, qNat_eq, zero_add]

end GNSS

namespace GNSS

/-- Claim C6, amended.  The top-3-average computed at flush is the
`toFixed(1)` rounding (nearest tenth, ties up) of the relevant plain average,
not the plain average itself: with 0 samples it is 0; with 1 or 2 samples it
is the plain average of the samples, rounded to one decimal; with 3 or more
samples it is the average of the 3 largest samples, rounded to one decimal. -/
theorem claim_C6_amended (ls : List ℚ) :
    (ls.length = 0 → calculateTop3Avg (ls.map some) = some 0) ∧
    (ls.length = 1 ∨ ls.length = 2 →
      calculateTop3Avg (ls.map some) =
        some ((⌊ls.sum / (ls.length : ℚ) * 10 + 1 / 2⌋ : ℚ) / 10)) ∧
    (3 ≤ ls.length → ∃ t rest : List ℚ, ls.Perm (t ++ rest) ∧ t.length = 3 ∧
      (∀ a ∈ t, ∀ b ∈ rest, b ≤ a) ∧
      calculateTop3Avg (ls.map some) =
        some ((⌊t.sum / 3 * 10 + 1 / 2⌋ : ℚ) / 10)) := by
  refine ⟨?_, ?_, ?_⟩
  · intro h0
    rw [List.length_eq_zero.mp h0]
    rfl
  · intro h12
    have hne : ls ≠ [] := by
      intro he
      rw [he] at h12
      simp at h12
    have hlen : (qSortDesc ls).length ≤ 3 := by
      rw [(qSortDesc_perm ls).length_eq]
      rcases h12 with h | h <;> omega
    rw [calculateTop3Avg_map ls hne, List.take_of_length_le hlen,
      (qSortDesc_perm ls).sum_eq, (qSortDesc_perm ls).length_eq, roundTo1_eq]
  · intro h3
    have hne : ls ≠ [] := by
      intro he
      rw [he] at h3
      simp at h3
    refine ⟨(qSortDesc ls).take 3, (qSortDesc ls).drop 3, ?_, ?_, ?_, ?_⟩
    · rw [List.take_append_drop]
      exact (qSortDesc_perm ls).symm
    · rw [List.length_take, (qSortDesc_perm ls).length_eq]
      omega
    · intro a ha b hb
      have hp := qSortDesc_pairwise ls
      rw [← List.take_append_drop 3 (qSortDesc ls), List.pairwise_append] at hp
      exact hp.2.2 a ha b hb
    · rw [calculateTop3Avg_map ls hne, roundTo1_eq, List.length_take,
        (qSortDesc_perm ls).length_eq]
      have : min 3 ls.length = 3 := by omega
      rw [this]
      norm_num

/-- Witness for the amended C6: the single-sample list `[10.25]` rounds to
10.3, and on four samples the three largest are averaged. -/
theorem claim_C6_amended_witness :
    calculateTop3Avg ([mkRat 41 4].map some) =
      some ((⌊([mkRat 41 4] : List ℚ).sum / (([mkRat 41 4] : List ℚ).length : ℚ)
        * 10 + 1 / 2⌋ : ℚ) / 10) ∧
    (3 ≤ ([5, 1, 4, 3] : List ℚ).length ∧ ∃ t rest : List ℚ,
      ([5, 1, 4, 3] : List ℚ).Perm (t ++ rest) ∧ t.length = 3 ∧
      (∀ a ∈ t, ∀ b ∈ rest, b ≤ a) ∧
      calculateTop3Avg (([5, 1, 4, 3] : List ℚ).map some) =
        some ((⌊t.sum / 3 * 10 + 1 / 2⌋ : ℚ) / 10)) :=
  ⟨(claim_C6_amended [mkRat 41 4]).2.1 (Or.inl rfl),
   by decide, (claim_C6_amended [5, 1, 4, 3]).2.2 (by decide)⟩

end GNSS

namespace GNSS

/-! ### The time-offset invariant (claim C4) -/

theorem goodTimes_snoc (l : List JsNum) (x : JsNum) (h : goodTimes (l ++ [x])) :
    goodTimes l ∧ ∃ q : ℚ, x = some q ∧ 0 ≤ q ∧
      ∀ L : ℚ, l.getLast? = some (some L) → L ≤ q := by
  obtain ⟨qs, heq, hch, hnn⟩ := h
  have hqs : qs ≠ [] := by
    intro h0
    rw [h0] at heq
    simp at heq
  obtain ⟨qs0, q, rfl⟩ : ∃ qs0 q, qs = qs0 ++ [q] :=
    ⟨qs.dropLast, qs.getLast hqs, (List.dropLast_append_getLast hqs).symm⟩
  rw [List.map_append] at heq
  have hlen : l.length = (qs0.map some).length := by
    have h1 := congrArg List.length heq
    simp only [List.length_append, List.length_map, List.length_cons,
      List.length_nil] at h1 ⊢
    omega
  obtain ⟨hl1, hl2⟩ := List.append_inj heq (by simpa using hlen)
  have hx : x = some q := by
    simpa using hl2
  have hchs := List.chain'_append.mp hch
  refine ⟨⟨qs0, hl1, hchs.1, fun r hr => hnn r (List.mem_append_left _ hr)⟩,
    q, hx, hnn q (List.mem_append_right _ (List.mem_singleton_self q)), ?_⟩
  intro L hL
  have : qs0.getLast? = some L := by
    rw [hl1] at hL
    rw [List.getLast?_map] at hL
    cases hq0 : qs0.getLast? with
    | none => rw [hq0] at hL; simp at hL
    | some z =>
      rw [hq0] at hL
      simp at hL
      rw [hL]
  exact hchs.2.2 L (by simp [this]) q (by simp)

theorem timeInv_congr (u v : ParserState)
    (hdp : v.dataPoints = u.dataPoints) (hA : v.startTime = u.startTime)
    (hdr : v.currentEpoch.timeSeconds = u.currentEpoch.timeSeconds)
    (hseen : v.seenTimes = u.seenTimes) (h : timeInv u) : timeInv v := by
  obtain ⟨os, h1, h2, h3, h4, h5, h6, h7⟩ := h
  exact ⟨os, by rw [hdp]; exact h1, h2, h3, by rw [hA]; exact h4,
    by rw [hA, hdr]; exact h5, by rw [hA, hdr, hseen]; exact h6,
    by rw [hdr]; exact h7⟩

theorem flushEpoch_seen (s : ParserState) :
    (flushEpoch s).seenTimes = s.seenTimes := by
  unfold flushEpoch
  dsimp only
  split <;> rfl

theorem flush_timeInv (s : ParserState) (h : timeInv s) : timeInv (flushEpoch s) := by
  obtain ⟨os, hmap, hch, hnn, hA, hA0, hApos, hdr⟩ := h
  unfold flushEpoch
  dsimp only
  cases hts : s.currentEpoch.timeSeconds with
  | none =>
    refine ⟨os, hmap, hch, hnn, hA, ?_, ?_, ?_⟩
    · intro h0
      exact ⟨(hA0 h0).1, by intro j hj; simp at hj⟩
    · intro hpos
      obtain ⟨L, hL, hAL, hosb, _⟩ := hApos hpos
      exact ⟨L, hL, hAL, hosb, by intro j hj; simp at hj⟩
    · intro j hj
      simp at hj
  | some j =>
    obtain ⟨o, hjo, ho0, homax⟩ := hdr j hts
    refine ⟨os ++ [o], ?_, ?_, ?_, hA, ?_, ?_, ?_⟩
    · simp only [List.map_append, List.map_cons, List.map_nil, hmap]
      have : (flushRecord s j).timeSeconds = some o := by
        rw [show (flushRecord s j).timeSeconds = j from rfl, hjo]
      simp [this]
    · rw [List.chain'_append]
      refine ⟨hch, by simp, ?_⟩
      intro a ha b hb
      simp at hb
      subst hb
      exact homax a (by
        cases hlast : os.getLast? with
        | none => rw [hlast] at ha; simp at ha
        | some z =>
          rw [hlast] at ha
          simp at ha
          rw [← ha]
          obtain ⟨hne, heqa⟩ := List.mem_getLast?_eq_getLast
            (show z ∈ os.getLast? from by rw [hlast]; rfl)
          rw [heqa]
          exact List.getLast_mem hne)
    · intro r hr
      rcases List.mem_append.mp hr with h1 | h1
      · exact hnn r h1
      · simp at h1
        subst h1
        exact ho0
    · intro h0
      refine ⟨?_, by intro j' hj'; simp at hj'⟩
      intro r hr
      rcases List.mem_append.mp hr with h1 | h1
      · exact (hA0 h0).1 r h1
      · simp at h1
        subst h1
        have := (hA0 h0).2 j hts
        rw [this] at hjo
        exact (Option.some.inj hjo).symm
    · intro hpos
      obtain ⟨L, hL, hAL, hosb, hdrb⟩ := hApos hpos
      refine ⟨L, hL, hAL, ?_, by intro j' hj'; simp at hj'⟩
      intro r hr
      rcases List.mem_append.mp hr with h1 | h1
      · exact hosb r h1
      · simp at h1
        subst h1
        obtain ⟨o2, ho2, hb⟩ := hdrb j hts
        rw [ho2] at hjo
        rw [← Option.some.inj hjo]
        exact hb
    · intro j' hj'
      simp at hj'

theorem seen_append_timeInv (u v : ParserState) (q : ℚ) (hq : 0 ≤ q)
    (h : timeInv u)
    (hlast : ∀ L : ℚ, u.seenTimes.getLast? = some (some L) → L ≤ q)
    (hdp : v.dataPoints = u.dataPoints)
    (hseen : v.seenTimes = u.seenTimes ++ [some q])
    (hA : v.startTime = u.startTime)
    (hdr : v.currentEpoch.timeSeconds = u.currentEpoch.timeSeconds) :
    timeInv v := by
  obtain ⟨os, hmap, hch, hnn, hA0le, hA0, hApos, hdrc⟩ := h
  refine ⟨os, by rw [hdp]; exact hmap, hch, hnn, by rw [hA]; exact hA0le, ?_, ?_, ?_⟩
  · rw [hA, hdr]
    exact hA0
  · rw [hA]
    intro hpos
    obtain ⟨L, hL, hAL, hosb, hdrb⟩ := hApos hpos
    have hLq : L ≤ q := hlast L hL
    refine ⟨q, ?_, le_trans hAL hLq, ?_, ?_⟩
    · rw [hseen]
      simp
    · intro o ho
      have := hosb o ho
      linarith
    · intro j hj
      obtain ⟨o, ho, hob⟩ := hdrb j (by rw [← hdr]; exact hj)
      exact ⟨o, ho, by linarith⟩
  · rw [hdr]
    exact hdrc

theorem seed_timeInv (u v : ParserState) (q : ℚ) (hq : 0 ≤ q)
    (h : timeInv u)
    (hlastq : u.seenTimes.getLast? = some (some q))
    (hdp : v.dataPoints = u.dataPoints)
    (hseen : v.seenTimes = u.seenTimes)
    (hA : u.startTime = 0 ∧ v.startTime = q ∨ 0 < u.startTime ∧ v.startTime = u.startTime)
    (hoff : v.currentEpoch.timeSeconds =
      some (some (if 0 < v.startTime then q - v.startTime else 0))) :
    timeInv v := by
  obtain ⟨os, hmap, hch, hnn, hA0le, hA0, hApos, hdrc⟩ := h
  have hvA0 : 0 ≤ v.startTime := by
    rcases hA with ⟨_, h2⟩ | ⟨h1, h2⟩
    · rw [h2]; exact hq
    · rw [h2]; exact hA0le
  refine ⟨os, by rw [hdp]; exact hmap, hch, hnn, hvA0, ?_, ?_, ?_⟩
  · intro h0
    rcases hA with ⟨hu0, hvq⟩ | ⟨hupos, hvA⟩
    · refine ⟨(hA0 hu0).1, ?_⟩
      intro j hj
      rw [hoff] at hj
      rw [← Option.some.inj hj]
      rw [if_neg (by rw [h0]; exact lt_irrefl 0)]
    · exact absurd (hvA ▸ h0) (ne_of_gt hupos)
  · intro hpos
    refine ⟨q, by rw [hseen]; exact hlastq, ?_, ?_, ?_⟩
    · rcases hA with ⟨hu0, hvq⟩ | ⟨hupos, hvA⟩
      · rw [hvq]
      · obtain ⟨L, hL, hAL, _, _⟩ := hApos hupos
        have hLq : some (L : ℚ) = some q := by
          have := hL.symm.trans hlastq
          exact Option.some.inj this
        rw [hvA]
        rw [← Option.some.inj hLq] at *
        exact hAL
    · intro o ho
      rcases hA with ⟨hu0, hvq⟩ | ⟨hupos, hvA⟩
      · have h1 := (hA0 hu0).1 o ho
        rw [h1, hvq]
        linarith
      · obtain ⟨L, hL, hAL, hosb, _⟩ := hApos hupos
        have hLq : L = q := Option.some.inj (Option.some.inj (hL.symm.trans hlastq))
        have := hosb o ho
        rw [hvA]
        linarith [this, hLq.ge, hLq.le]
    · intro j hj
      rw [hoff] at hj
      refine ⟨q - v.startTime, ?_, by linarith⟩
      rw [← Option.some.inj hj]
      rw [if_pos hpos]
  · intro j hj
    rw [hoff] at hj
    by_cases hpos : 0 < v.startTime
    · refine ⟨q - v.startTime, by rw [← Option.some.inj hj, if_pos hpos], ?_, ?_⟩
      · rcases hA with ⟨hu0, hvq⟩ | ⟨hupos, hvA⟩
        · rw [hvq]; linarith
        · obtain ⟨L, hL, hAL, _, _⟩ := hApos hupos
          have hLq : L = q := Option.some.inj (Option.some.inj (hL.symm.trans hlastq))
          rw [hvA]
          linarith
      · intro o2 ho2
        rcases hA with ⟨hu0, hvq⟩ | ⟨hupos, hvA⟩
        · have h1 := (hA0 hu0).1 o2 ho2
          rw [h1, hvq]
          linarith
        · obtain ⟨L, hL, hAL, hosb, _⟩ := hApos hupos
          have hLq : L = q := Option.some.inj (Option.some.inj (hL.symm.trans hlastq))
          have := hosb o2 ho2
          rw [hvA]
          linarith
    · refine ⟨0, by rw [← Option.some.inj hj, if_neg hpos], le_refl 0, ?_⟩
      intro o2 ho2
      rcases hA with ⟨hu0, hvq⟩ | ⟨hupos, hvA⟩
      · exact ((hA0 hu0).1 o2 ho2).le
      · exact absurd (hvA ▸ hupos) hpos

theorem timeInv_initState : timeInv initState := by
  refine ⟨[], rfl, List.chain'_nil, by intro o ho; simp at ho, le_refl 0, ?_, ?_, ?_⟩
  · intro _
    exact ⟨by intro o ho; simp at ho, by intro j hj; exact absurd hj (by simp [initState])⟩
  · intro hpos
    exact absurd hpos (lt_irrefl 0)
  · intro j hj
    exact absurd hj (by simp [initState])
theorem sbfTimeStep_seen (tow : ℤ) (u : ParserState) (h1 : tow ≠ 4294967295) :
    (sbfTimeStep tow u).seenTimes =
      u.seenTimes ++ [some (qDiv (qInt tow) (qInt 1000))] := by
  unfold sbfTimeStep
  dsimp only
  rw [if_pos h1]
  split <;> split <;> (try rw [flushEpoch_seen]) <;> rfl

theorem gga_seed_timeInv (u : ParserState) (tSecs : JsNum) (v : ParserState)
    (hdp : v.dataPoints = (flushEpoch u).dataPoints)
    (hseen : v.seenTimes = (flushEpoch u).seenTimes ++ [tSecs])
    (hAeq : v.startTime =
      (if (flushEpoch u).startTime = 0 ∧ jsGtZero tSecs then tSecs.getD 0
       else (flushEpoch u).startTime))
    (hoff : v.currentEpoch.timeSeconds =
      some (if 0 < v.startTime then jsSub tSecs (some v.startTime) else some 0))
    (h : goodTimes u.seenTimes → timeInv u)
    (hg : goodTimes v.seenTimes) : timeInv v := by
  rw [hseen, flushEpoch_seen] at hg
  obtain ⟨hgu, q, htq, hq0, hlast⟩ := goodTimes_snoc u.seenTimes tSecs hg
  have hU : timeInv (flushEpoch u) := flush_timeInv u (h hgu)
  have hW : timeInv { flushEpoch u with
      seenTimes := (flushEpoch u).seenTimes ++ [some q] } := by
    refine seen_append_timeInv (flushEpoch u) _ q hq0 hU ?_ rfl rfl rfl rfl
    rw [flushEpoch_seen]
    exact hlast
  have hA0le : 0 ≤ (flushEpoch u).startTime := by
    obtain ⟨os, _, _, _, h4, _, _, _⟩ := hU
    exact h4
  refine seed_timeInv { flushEpoch u with
      seenTimes := (flushEpoch u).seenTimes ++ [some q] } v q hq0 hW ?_ hdp ?_ ?_ ?_
  · simp
  · rw [hseen, htq]
  · by_cases hA0 : (flushEpoch u).startTime = 0
    · left
      refine ⟨hA0, ?_⟩
      by_cases hgt : jsGtZero tSecs = true
      · rw [hAeq, if_pos ⟨hA0, hgt⟩, htq]
        rfl
      · have hq0' : q = 0 := by
          rw [htq] at hgt
          simp [jsGtZero] at hgt
          linarith
        rw [hAeq, if_neg (by intro hc; exact hgt hc.2), hA0, hq0']
    · right
      have : 0 < (flushEpoch u).startTime := lt_of_le_of_ne hA0le (Ne.symm hA0)
      refine ⟨this, ?_⟩
      rw [hAeq, if_neg (by intro hc; exact hA0 hc.1)]
  · rw [htq] at hoff
    by_cases hp : 0 < v.startTime
    · rw [if_pos hp] at hoff
      rw [hoff, if_pos hp, jsSub_some]
    · rw [if_neg hp] at hoff
      rw [hoff, if_neg hp]

theorem flushEpoch_startTime (s : ParserState) :
    (flushEpoch s).startTime = s.startTime := by
  unfold flushEpoch
  dsimp only
  split <;> rfl

theorem timeInv_setTow (w : ParserState) (tw : ℤ) (h : timeInv w) :
    timeInv { w with lastSbfTow := tw } :=
  timeInv_congr w { w with lastSbfTow := tw } rfl rfl rfl rfl h

theorem timeInv_setTow2 (w : ParserState) (tw : ℤ) (a : ℚ) (ha : a = w.startTime)
    (h : timeInv w) : timeInv { w with
      startTime := a
      lastSbfTow := tw } :=
  timeInv_congr w
    { w with
      startTime := a
      lastSbfTow := tw }
    rfl (by rw [ha]) rfl rfl h

theorem sbfTimeStep_timeInv (tow : ℤ) (u : ParserState)
    (h : goodTimes u.seenTimes → timeInv u)
    (hg : goodTimes ((sbfTimeStep tow u).seenTimes)) :
    timeInv (sbfTimeStep tow u) := by
  by_cases h1 : tow ≠ 4294967295
  case neg =>
    have he : sbfTimeStep tow u = u := by
      unfold sbfTimeStep
      rw [if_neg h1]
    rw [he] at hg ⊢
    exact h hg
  case pos =>
    rw [sbfTimeStep_seen tow u h1] at hg
    obtain ⟨hgu, q, htq, hq0, hlast⟩ := goodTimes_snoc _ _ hg
    have hq : qDiv (qInt tow) (qInt 1000) = q := Option.some.inj htq
    have hU : timeInv u := h hgu
    have hA0le : 0 ≤ u.startTime := by
      obtain ⟨os, _, _, _, h4, _, _, _⟩ := hU
      exact h4
    have hS1 : timeInv { u with
        seenTimes := u.seenTimes ++ [some (qDiv (qInt tow) (qInt 1000))] } := by
      refine seen_append_timeInv u _ q hq0 hU hlast rfl ?_ rfl rfl
      rw [hq]
    unfold sbfTimeStep
    rw [if_pos h1]
    dsimp only
    split
    · rw [flushEpoch_startTime]
      dsimp only
      by_cases hA0 : u.startTime = 0
      · rw [if_pos hA0]
        split
        · refine seed_timeInv _ _ q hq0
            (timeInv_setTow _ tow (flush_timeInv _ hS1)) ?_ rfl rfl ?_ ?_
          · dsimp only
            rw [flushEpoch_seen]
            dsimp only
            rw [hq]
            simp
          · refine Or.inl ⟨?_, hq⟩
            dsimp only
            rw [flushEpoch_startTime]
            exact hA0
          · dsimp only
            rw [qSub_eq, hq]
            split <;> simp
        · exact timeInv_setTow2 _ tow u.startTime (by rw [flushEpoch_startTime]) (flush_timeInv _ hS1)
      · rw [if_neg hA0]
        have hpos : 0 < u.startTime := lt_of_le_of_ne hA0le (Ne.symm hA0)
        split
        · refine seed_timeInv _ _ q hq0
            (timeInv_setTow _ tow (flush_timeInv _ hS1)) ?_ rfl rfl ?_ ?_
          · dsimp only
            rw [flushEpoch_seen]
            dsimp only
            rw [hq]
            simp
          · refine Or.inr ⟨?_, ?_⟩
            · dsimp only
              rw [flushEpoch_startTime]
              exact hpos
            · dsimp only
              rw [flushEpoch_startTime]
          · dsimp only
            rw [qSub_eq, hq, if_pos hpos]
        · exact timeInv_setTow2 _ tow u.startTime (by rw [flushEpoch_startTime]) (flush_timeInv _ hS1)
    · dsimp only
      by_cases hA0 : u.startTime = 0
      · rw [if_pos hA0]
        split
        · refine seed_timeInv _ _ q hq0
            (timeInv_setTow _ tow hS1) ?_ rfl rfl ?_ ?_
          · dsimp only
            rw [hq]
            simp
          · exact Or.inl ⟨hA0, hq⟩
          · dsimp only
            rw [qSub_eq, hq]
            split <;> simp
        · exact timeInv_setTow _ tow hS1
      · rw [if_neg hA0]
        have hpos : 0 < u.startTime := lt_of_le_of_ne hA0le (Ne.symm hA0)
        split
        · refine seed_timeInv _ _ q hq0
            (timeInv_setTow _ tow hS1) ?_ rfl rfl ?_ ?_
          · dsimp only
            rw [hq]
            simp
          · exact Or.inr ⟨hpos, rfl⟩
          · dsimp only
            rw [qSub_eq, hq, if_pos hpos]
        · exact timeInv_setTow _ tow hS1

theorem processGGA_timeInv (l : List Char) (s : ParserState)
    (h : goodTimes s.seenTimes → timeInv s)
    (hg : goodTimes ((processGGA l s).seenTimes)) :
    timeInv (processGGA l s) := by
  unfold processGGA at hg ⊢
  dsimp only at hg ⊢
  split
  next hc =>
    rw [if_pos hc] at hg
    split
    next hc2 =>
      rw [if_pos hc2] at hg
      split
      next hc3 =>
        rw [if_pos hc3] at hg
        exact gga_seed_timeInv s _ _ rfl rfl rfl rfl h hg
      next hc3 =>
        rw [if_neg hc3] at hg
        exact h hg
    next hc2 =>
      rw [if_neg hc2] at hg
      exact h hg
  next hc =>
    rw [if_neg hc] at hg
    exact h hg

theorem processGSA_seen (l : List Char) (u : ParserState) :
    (processGSA l u).seenTimes = u.seenTimes := by
  conv_lhs => rw [processGSA_shape]

theorem processGSV_seen (l : List Char) (u : ParserState) :
    (processGSV l u).seenTimes = u.seenTimes := by
  conv_lhs => rw [processGSV_shape]

theorem processUbx_seen (c id len : ℕ) (p : List ℕ) (u : ParserState) :
    (processUbx c id len p u).seenTimes = u.seenTimes := by
  conv_lhs => rw [processUbx_shape]

theorem processSbfBlock_seen (bn : ℕ) (p : List ℕ) (u : ParserState) :
    (processSbfBlock bn p u).seenTimes = u.seenTimes := by
  conv_lhs => rw [processSbfBlock_shape]

theorem processSbfNrSv_seen (bn : ℕ) (p : List ℕ) (u : ParserState) :
    (processSbfNrSv bn p u).seenTimes = u.seenTimes := by
  conv_lhs => rw [processSbfNrSv_shape]

theorem processGSA_timeInvPres (l : List Char) (u : ParserState) (h : timeInv u) :
    timeInv (processGSA l u) := by
  refine timeInv_congr u (processGSA l u) ?_ ?_ ?_ ?_ h
  · conv_lhs => rw [processGSA_shape]
  · conv_lhs => rw [processGSA_shape]
  · conv_lhs => rw [processGSA_shape]
  · conv_lhs => rw [processGSA_shape]

theorem processGSV_timeInvPres (l : List Char) (u : ParserState) (h : timeInv u) :
    timeInv (processGSV l u) := by
  refine timeInv_congr u (processGSV l u) ?_ ?_ ?_ ?_ h
  · conv_lhs => rw [processGSV_shape]
  · conv_lhs => rw [processGSV_shape]
  · conv_lhs => rw [processGSV_shape]
  · conv_lhs => rw [processGSV_shape]

theorem processUbx_timeInvPres (c id len : ℕ) (p : List ℕ) (u : ParserState)
    (h : timeInv u) : timeInv (processUbx c id len p u) := by
  refine timeInv_congr u (processUbx c id len p u) ?_ ?_ ?_ ?_ h
  · conv_lhs => rw [processUbx_shape]
  · conv_lhs => rw [processUbx_shape]
  · conv_lhs => rw [processUbx_shape]
  · conv_lhs => rw [processUbx_shape]

theorem processSbfBlock_timeInvPres (bn : ℕ) (p : List ℕ) (u : ParserState)
    (h : timeInv u) : timeInv (processSbfBlock bn p u) := by
  refine timeInv_congr u (processSbfBlock bn p u) ?_ ?_ ?_ ?_ h
  · conv_lhs => rw [processSbfBlock_shape]
  · conv_lhs => rw [processSbfBlock_shape]
  · conv_lhs => rw [processSbfBlock_shape]
  · conv_lhs => rw [processSbfBlock_shape]

theorem processSbfNrSv_timeInvPres (bn : ℕ) (p : List ℕ) (u : ParserState)
    (h : timeInv u) : timeInv (processSbfNrSv bn p u) := by
  refine timeInv_congr u (processSbfNrSv bn p u) ?_ ?_ ?_ ?_ h
  · conv_lhs => rw [processSbfNrSv_shape]
  · conv_lhs => rw [processSbfNrSv_shape]
  · conv_lhs => rw [processSbfNrSv_shape]
  · conv_lhs => rw [processSbfNrSv_shape]

theorem timeInv_setI (w : ParserState) (n : ℕ) (h : timeInv w) :
    timeInv { w with i := n } :=
  timeInv_congr w { w with i := n } rfl rfl rfl rfl h

theorem processNmeaLine_timeInv (l : List Char) (s : ParserState)
    (h : goodTimes s.seenTimes → timeInv s)
    (hg : goodTimes ((processNmeaLine l s).seenTimes)) :
    timeInv (processNmeaLine l s) := by
  unfold processNmeaLine at hg ⊢
  dsimp only at hg ⊢
  cases hidx : l.findIdx? (· = ',') with
  | none =>
    rw [hidx] at hg
    dsimp only at hg ⊢
    refine processGGA_timeInv _ _ ?_ hg
    intro hgood
    rw [processGSV_seen, processGSA_seen] at hgood
    exact processGSV_timeInvPres _ _ (processGSA_timeInvPres _ _
      (timeInv_congr s _ rfl rfl rfl rfl (h hgood)))
  | some idx =>
    rw [hidx] at hg
    dsimp only at hg ⊢
    by_cases hp : 0 < idx
    · rw [if_pos hp] at hg ⊢
      refine processGGA_timeInv _ _ ?_ hg
      intro hgood
      rw [processGSV_seen, processGSA_seen] at hgood
      exact processGSV_timeInvPres _ _ (processGSA_timeInvPres _ _
        (timeInv_congr s _ rfl rfl rfl rfl (h hgood)))
    · rw [if_neg hp] at hg ⊢
      refine processGGA_timeInv _ _ ?_ hg
      intro hgood
      rw [processGSV_seen, processGSA_seen] at hgood
      exact processGSV_timeInvPres _ _ (processGSA_timeInvPres _ _
        (timeInv_congr s _ rfl rfl rfl rfl (h hgood)))

theorem parseStepTail_timeInv (buf : List ℕ) (s : ParserState)
    (h : goodTimes s.seenTimes → timeInv s)
    (hg : goodTimes ((parseStepTail buf s).seenTimes)) :
    timeInv (parseStepTail buf s) := by
  by_cases hc1 : buf.getD s.i 0 = 181 ∧ s.i + 1 < buf.length ∧
      buf.getD (s.i + 1) 0 = 98 ∧ s.i + 6 ≤ buf.length ∧
      s.i + 6 + (buf.getD (s.i + 4) 0 + 256 * buf.getD (s.i + 5) 0) + 2 ≤ buf.length
  · rw [parseStepTail_ubx buf s hc1] at hg ⊢
    dsimp only at hg
    rw [processUbx_seen] at hg
    exact timeInv_setI _ _ (processUbx_timeInvPres _ _ _ _ _ (h hg))
  · by_cases hc2 : buf.getD s.i 0 = 36 ∧ s.i + 1 < buf.length ∧
        buf.getD (s.i + 1) 0 = 64 ∧ s.i + 8 ≤ buf.length ∧
        s.i + (buf.getD (s.i + 6) 0 + 256 * buf.getD (s.i + 7) 0) ≤ buf.length
    · rw [parseStepTail_sbf buf s hc1 hc2] at hg ⊢
      dsimp only at hg
      rw [processSbfNrSv_seen, processSbfBlock_seen] at hg
      exact timeInv_setI _ _ (processSbfNrSv_timeInvPres _ _ _
        (processSbfBlock_timeInvPres _ _ _ (sbfTimeStep_timeInv _ _ h hg)))
    · rw [parseStepTail_resync buf s hc1 hc2] at hg ⊢
      dsimp only at hg
      exact timeInv_setI _ _ (h hg)

theorem parseStep_timeInv (buf : List ℕ) (s : ParserState)
    (h : goodTimes s.seenTimes → timeInv s)
    (hg : goodTimes ((parseStep buf s).seenTimes)) :
    timeInv (parseStep buf s) := by
  by_cases hc1 : buf.getD s.i 0 = 36 ∧
      (buf.length ≤ s.i + 1 ∨ buf.getD (s.i + 1) 0 ≠ 64)
  · cases hle : findLineEnd buf s.i with
    | some le =>
      rw [parseStep_nmea buf s le hc1.1 hc1.2 hle] at hg ⊢
      dsimp only at hg
      exact timeInv_setI _ _ (processNmeaLine_timeInv _ _ h hg)
    | none =>
      rw [parseStep_nmea_none buf s hle] at hg ⊢
      exact parseStepTail_timeInv buf s h hg
  · rw [parseStep_not_nmea buf s hc1] at hg ⊢
    exact parseStepTail_timeInv buf s h hg

theorem parseLoop_timeInv (buf : List ℕ) (n : ℕ) :
    ∀ s : ParserState, (goodTimes s.seenTimes → timeInv s) →
      goodTimes ((parseLoop buf n s).seenTimes) → timeInv (parseLoop buf n s) := by
  induction n with
  | zero =>
    intro s h hg
    exact h hg
  | succ n ih =>
    intro s h hg
    by_cases hi : s.i < buf.length
    · simp only [parseLoop] at hg ⊢
      rw [if_pos hi] at hg ⊢
      exact ih (parseStep buf s) (parseStep_timeInv buf s h) hg
    · simp only [parseLoop] at hg ⊢
      rw [if_neg hi] at hg ⊢
      exact h hg

/-- C4 (amended): whenever the scan finishes within its fuel and every time
value the parse encountered (GGA seconds-of-day, SBF TOW/1000) is a genuine
number, non-negative and non-decreasing in encounter order, every record in
the output carries a genuine, non-negative time offset, and the offsets are
non-decreasing in emission order. -/
theorem claim_C4_amended (buf : List ℕ) (fuel : ℕ) (out : ParseOutput)
    (hout : parseGNSSLog buf fuel = some out)
    (hg : goodTimes ((parseLoop buf fuel initState).seenTimes)) :
    offsetsOk out.data := by
  have hI : timeInv (parseLoop buf fuel initState) :=
    parseLoop_timeInv buf fuel initState (fun _ => timeInv_initState) hg
  have hF : timeInv (flushEpoch (parseLoop buf fuel initState)) := flush_timeInv _ hI
  unfold parseGNSSLog at hout
  dsimp only at hout
  by_cases hi : buf.length ≤ (parseLoop buf fuel initState).i
  · rw [if_pos hi] at hout
    rw [← Option.some.inj hout]
    obtain ⟨os, h1, h2, h3, _⟩ := hF
    exact ⟨os, h1, h2, h3⟩
  · rw [if_neg hi] at hout
    exact absurd hout (by simp)

/-- Witness for the amended C4 on the single-GGA buffer of claim C8: the
parse completes, the one encountered time (45319 s of day) is good, and the
theorem yields well-formed offsets for the output. -/
theorem claim_C4_amended_witness :
    parseGNSSLog c8buf 2 =
      some ((parseGNSSLog c8buf 2).getD ⟨[], [], []⟩) ∧
    offsetsOk ((parseGNSSLog c8buf 2).getD ⟨[], [], []⟩).data := by
  constructor
  · rfl
  · refine claim_C4_amended c8buf 2 _ rfl ⟨[45319], by rfl, ?_, ?_⟩
    · exact List.chain'_singleton _
    · intro q hq
      simp only [List.mem_singleton] at hq
      rw [hq]
      norm_num

end GNSS

